import Mathlib

/-!
Verification development for the geometry-and-constraint synthesis core of
ApexSketch.py (classes ApexPoint usage, ApexArcFeature, ApexLineFeature,
ApexPointFeature, ApexCircleFeature, ApexPolygon, ApexCircle, ApexElementKey,
ApexDrawing.plane_process).  Python floats are modelled by real numbers
(and by rationals in the purely order/equality-based grouping component);
Python exceptions are modelled by Except String.
-/

/-- Modelled from the spec: the Apex module (not part of the two source files)
provides an immutable 2D/3D point with an identity tag (name), an optional
rounding radius and a diameter, together with vector arithmetic.  Coordinates
and lengths are floats, modelled as reals. -/
structure ApexPoint where
  x : ℝ
  y : ℝ
  z : ℝ
  radius : ℝ
  diameter : ℝ
  name : String

instance : Inhabited ApexPoint := ⟨⟨0, 0, 0, 0, 0, ""⟩⟩

/-- Modelled from the spec: componentwise vector subtraction on points
(the identity fields of a derived point are left at their defaults). -/
def ApexPoint.sub (p q : ApexPoint) : ApexPoint :=
  ⟨p.x - q.x, p.y - q.y, p.z - q.z, 0, 0, ""⟩

instance : Sub ApexPoint := ⟨ApexPoint.sub⟩

/-- Modelled from the spec: componentwise vector addition on points. -/
def ApexPoint.add (p q : ApexPoint) : ApexPoint :=
  ⟨p.x + q.x, p.y + q.y, p.z + q.z, 0, 0, ""⟩

instance : Add ApexPoint := ⟨ApexPoint.add⟩

/-- Modelled from the spec: scaling a point (vector) by a scalar. -/
def ApexPoint.scale (p : ApexPoint) (k : ℝ) : ApexPoint :=
  ⟨p.x * k, p.y * k, p.z * k, 0, 0, ""⟩

/-- Modelled from the spec: the Euclidean length of a point viewed as a
3D vector (ApexPoint.magnitude in the Apex module). -/
noncomputable def ApexPoint.magnitude (p : ApexPoint) : ℝ :=
  Real.sqrt (p.x * p.x + p.y * p.y + p.z * p.z)

/-- Modelled from the spec: ApexPoint.atan2 returns the angle of the 2D
vector (x, y), with the range and conventions of the C/Python atan2
function, i.e. the complex argument of x + y*i. -/
noncomputable def ApexPoint.atan2 (p : ApexPoint) : ℝ :=
  Complex.arg ⟨p.x, p.y⟩

/-- Python float modulus a % b for b > 0: a - b * floor(a / b).
Used for the sac_angle computation (`... % pi` in ApexArcFeature.__init__). -/
noncomputable def pymod (a b : ℝ) : ℝ :=
  a - b * (⌊a / b⌋ : ℤ)

/-- The local helper normalize_2d of ApexArcFeature.__init__: returns the
point normalized in X and Y only.  A zero-length vector raises a Python
ZeroDivisionError, modelled as an error result. -/
noncomputable def normalize_2d (point : ApexPoint) : Except String ApexPoint :=
  let length : ℝ := Real.sqrt (point.x * point.x + point.y * point.y)
  if length = 0 then .error "float division by zero"
  else .ok ⟨point.x / length, point.y / length, 0, 0, 0, ""⟩

/-- The sweep-angle normalization of ApexArcFeature.__init__ (source lines
289-296): the difference finish_angle - start_angle, brought back once by
2*pi when it leaves (-pi, pi]. -/
noncomputable def sweepNormalize (sweep : ℝ) : ℝ :=
  if sweep > Real.pi then sweep - 2 * Real.pi
  else if sweep ≤ -Real.pi then sweep + 2 * Real.pi
  else sweep

/-- The data computed and stored by ApexArcFeature.__init__ (the part_arc
FreeCAD object is external and omitted).  Note that the stored start_angle
is the one after the negative-sweep swap performed for the rendered arc. -/
structure ArcFeature where
  apex : ApexPoint
  begin_ : ApexPoint
  center : ApexPoint
  end_ : ApexPoint
  finish : ApexPoint
  finish_angle : ℝ
  finish_length : ℝ
  radius : ℝ
  start : ApexPoint
  sweep_angle : ℝ
  start_angle : ℝ
  start_length : ℝ

/-- ApexArcFeature.__init__: the tangent-arc solver.  Follows the source
line by line: radius guard, 2D unit vectors, bisector, sac_angle,
right-triangle lengths, center and tangent points, atan2 angles, sweep
normalization by one addition/subtraction of 2*pi, and the swap of
start/end angles for a negative sweep (which affects the stored
start_angle). -/
noncomputable def ApexArcFeature.solve (begin_ apex end_ : ApexPoint) :
    Except String ArcFeature :=
  let epsilon : ℝ := 1e-10
  let r : ℝ := apex.radius
  if r < epsilon then .error "No Arc with zero radius." else
  let ab : ApexPoint := begin_ - apex
  let ae : ApexPoint := end_ - apex
  match normalize_2d ab with
  | .error e => .error e
  | .ok unit_ab =>
  match normalize_2d ae with
  | .error e => .error e
  | .ok unit_ae =>
  match normalize_2d (unit_ab + unit_ae) with
  | .error e => .error e
  | .ok unit_am =>
  let ab_angle : ℝ := ab.atan2
  let am_angle : ℝ := unit_am.atan2
  let sac_angle : ℝ := pymod |ab_angle - am_angle| Real.pi
  if Real.sin sac_angle = 0 then .error "float division by zero" else
  let ac_length : ℝ := r / Real.sin sac_angle
  let as_length : ℝ := Real.sqrt (ac_length * ac_length - r * r)
  let af_length : ℝ := as_length
  let c : ApexPoint := apex + unit_am.scale ac_length
  let s : ApexPoint := apex + unit_ab.scale as_length
  let f : ApexPoint := apex + unit_ae.scale af_length
  let start_angle : ℝ := (s - c).atan2
  let finish_angle : ℝ := (f - c).atan2
  let sweep_angle : ℝ := sweepNormalize (finish_angle - start_angle)
  let end_angle : ℝ := start_angle + sweep_angle
  .ok { apex := apex, begin_ := begin_, center := c, end_ := end_,
        finish := f, finish_angle := finish_angle, finish_length := af_length,
        radius := r, start := s, sweep_angle := sweep_angle,
        start_angle := if sweep_angle < 0 then end_angle else start_angle,
        start_length := as_length }

/-- The variant part of an ApexFeature: ApexPointFeature, ApexLineFeature,
ApexArcFeature or ApexCircleFeature (the FreeCAD part_feature objects are
external and omitted). -/
inductive FeatureKind where
  | point (pt : ApexPoint)
  | line (start finish : ApexPoint)
  | arc (a : ArcFeature)
  | circle (center : ApexPoint) (radius : ℝ)

/-- An ApexFeature: the base-class state (index, initialized to -999 and
set once later by ApexDrawing.sketch, plus the name) together with the
variant payload.  The circular next/previous links set up in pass 4 of
ApexPolygon.features_get are not modelled: ApexPolygon.constraints_append
navigates by list position (features[(at_index +- 1) % features_size]),
not through those links. -/
structure ApexFeature where
  index : ℤ
  name : String
  kind : FeatureKind

/-- ApexFeature.__init__ name rule: an empty name is replaced by the name of
the start point. -/
def ApexFeature.make (start : ApexPoint) (name : String) (kind : FeatureKind) :
    ApexFeature :=
  { index := -999, name := if name = "" then start.name else name, kind := kind }

instance : Inhabited ApexFeature :=
  ⟨{ index := -999, name := "", kind := .point default }⟩

/-- The start property: tangent start point for an arc, first endpoint for a
line; for points and circles the base class stores the point (resp. center)
as both start and finish. -/
def ApexFeature.start (f : ApexFeature) : ApexPoint :=
  match f.kind with
  | .point pt => pt
  | .line s _ => s
  | .arc a => a.start
  | .circle c _ => c

/-- The finish property, symmetric to start. -/
def ApexFeature.finish (f : ApexFeature) : ApexPoint :=
  match f.kind with
  | .point pt => pt
  | .line _ fi => fi
  | .arc a => a.finish
  | .circle c _ => c

/-- ApexLineFeature.start_key returns 1; ApexArcFeature.start_key returns
1 when sweep_angle < 0 and 2 otherwise (source lines 430-435).  The base
class raises NotImplementedError for the other variants (never reached by
polygon constraint synthesis); 0 stands in for that unreachable case. -/
noncomputable def ApexFeature.start_key (f : ApexFeature) : ℤ :=
  match f.kind with
  | .point _ => 0
  | .line _ _ => 1
  | .arc a => if a.sweep_angle < 0 then 1 else 2
  | .circle _ _ => 0

/-- ApexLineFeature.finish_key returns 2; ApexArcFeature.finish_key returns
2 when sweep_angle < 0 and 1 otherwise (source lines 381-386).  The base
class raises NotImplementedError for the other variants; 0 stands in for
that unreachable case. -/
noncomputable def ApexFeature.finish_key (f : ApexFeature) : ℤ :=
  match f.kind with
  | .point _ => 0
  | .line _ _ => 2
  | .arc a => if a.sweep_angle < 0 then 2 else 1
  | .circle _ _ => 0

/-- Whether the feature is an ApexArcFeature (the isinstance checks in
ApexPolygon.constraints_append). -/
def ApexFeature.isArc (f : ApexFeature) : Bool :=
  match f.kind with
  | .arc _ => true
  | _ => false

/-- A Sketcher.Constraint as built by the source: a kind name followed by
the positional operands (feature index, anchor key, optional second
feature index and key, optional float value). -/
inductive SketchConstraint where
  | Radius (feature : ℤ) (value : ℝ)
  | DistanceX (f1 k1 f2 k2 : ℤ) (value : ℝ)
  | DistanceY (f1 k1 f2 k2 : ℤ) (value : ℝ)
  | Tangent (f1 k1 f2 k2 : ℤ)
  | Coincident (f1 k1 f2 k2 : ℤ)

/-- Whether a constraint is a Tangent constraint. -/
def SketchConstraint.isTangent : SketchConstraint → Bool
  | .Tangent _ _ _ _ => true
  | _ => false

/-- Whether a constraint is a Coincident constraint. -/
def SketchConstraint.isCoincident : SketchConstraint → Bool
  | .Coincident _ _ _ _ => true
  | _ => false

/-- Whether a constraint is a Radius constraint. -/
def SketchConstraint.isRadius : SketchConstraint → Bool
  | .Radius _ _ => true
  | _ => false

/-- One iteration of the loop of ApexPolygon.constraints_append (source
lines 834-956) for position at_index: the constraints emitted while
comparing at_feature with before_feature (and peeking at after_feature).
For an arc: a Radius constraint, then DistanceX/DistanceY pinning the arc
center to the origin feature unless the arc is sandwiched between two
arcs.  Then the junction: a single Tangent when either side is an arc,
otherwise Coincident plus DistanceX/DistanceY pinning the start point. -/
noncomputable def constraintsAt (origin_index : ℤ) (features : List ApexFeature)
    (at_index : ℕ) : List SketchConstraint :=
  let n : ℕ := features.length
  let at_feature : ApexFeature := features.getD at_index default
  let before_feature : ApexFeature := features.getD ((at_index + n - 1) % n) default
  let after_feature : ApexFeature := features.getD ((at_index + 1) % n) default
  let arc_part : List SketchConstraint :=
    match at_feature.kind with
    | .arc a =>
      [.Radius at_feature.index a.radius] ++
      -- "if not (before_arc and at_arc and after_arc)"; at_arc holds here.
      (if before_feature.isArc && at_feature.isArc && after_feature.isArc then []
       else [.DistanceX origin_index 1 at_feature.index 3 a.center.x,
             .DistanceY origin_index 1 at_feature.index 3 a.center.y])
    | _ => []
  let junction_part : List SketchConstraint :=
    if before_feature.isArc || at_feature.isArc then
      [.Tangent before_feature.index before_feature.finish_key
                at_feature.index at_feature.start_key]
    else
      [.Coincident before_feature.index before_feature.finish_key
                   at_feature.index at_feature.start_key,
       .DistanceX origin_index 1 at_feature.index at_feature.start_key
                  at_feature.start.x,
       .DistanceY origin_index 1 at_feature.index at_feature.start_key
                  at_feature.start.y]
  arc_part ++ junction_part

/-- ApexPolygon.constraints_append: the full loop, concatenating the
constraints of every position in order. -/
noncomputable def ApexPolygon.constraints_append (origin_index : ℤ)
    (features : List ApexFeature) : List SketchConstraint :=
  (List.range features.length).flatMap (constraintsAt origin_index features)

/-- Sequencing of a Python for-loop that builds a list and can raise: apply
f to each item in order, stopping at the first error. -/
def exceptMapList {α β : Type} (f : α → Except String β) : List α → Except String (List β)
  | [] => .ok []
  | i :: rest =>
    match f i with
    | .error e => .error e
    | .ok x =>
      match exceptMapList f rest with
      | .error e => .error e
      | .ok xs => .ok (x :: xs)

/-- Pass 1 of ApexPolygon.features_get, at one index: when the point has a
positive rounding radius, run the arc solver on (previous point, point,
next point); otherwise no arc. -/
noncomputable def polygonArcAt (points : List ApexPoint) (i : ℕ) :
    Except String (Option ArcFeature) :=
  let n : ℕ := points.length
  let at_point : ApexPoint := points.getD i default
  let before_point : ApexPoint := points.getD ((i + n - 1) % n) default
  let after_point : ApexPoint := points.getD ((i + 1) % n) default
  if at_point.radius > 0 then
    match ApexArcFeature.solve before_point at_point after_point with
    | .error e => .error e
    | .ok a => .ok (some a)
  else .ok none

/-- Pass 2 of ApexPolygon.features_get, at one index: the candidate line
from (previous arc finish, else previous point) to (this arc start, else
this point).  When both neighbors carry arcs: if the two tangent-leg
lengths sum to the vertex distance within epsilon = 1e-9 the line is
suppressed; if they exceed it (outside that tolerance) the build fails
with "Arcs are too big".  Returns the line endpoints and name, or none. -/
noncomputable def polygonLineAt (points : List ApexPoint)
    (arcs : List (Option ArcFeature)) (i : ℕ) :
    Except String (Option (ApexPoint × ApexPoint × String)) :=
  let n : ℕ := points.length
  let before_index : ℕ := (i + n - 1) % n
  let at_point : ApexPoint := points.getD i default
  let before_point : ApexPoint := points.getD before_index default
  let before_arc : Option ArcFeature := arcs.getD before_index none
  let at_arc : Option ArcFeature := arcs.getD i none
  let start : ApexPoint :=
    match before_arc with
    | some ba => ba.finish
    | none => before_point
  let finish : ApexPoint :=
    match at_arc with
    | some aa => aa.start
    | none => at_point
  match before_arc, at_arc with
  | some ba, some aa =>
    let line_length : ℝ := (before_point - at_point).magnitude
    let before_length : ℝ := (ba.finish - ba.apex).magnitude
    let at_length : ℝ := (aa.start - aa.apex).magnitude
    let arc_lengths : ℝ := before_length + at_length
    if |arc_lengths - line_length| < 1e-9 then .ok none
    else if arc_lengths > line_length then .error "Arcs are too big"
    else .ok (some (start, finish, at_point.name))
  | _, _ => .ok (some (start, finish, at_point.name))

/-- Pass 3 of ApexPolygon.features_get: concatenate, per vertex in order,
the surviving line (if any) followed by the arc (if any), wrapping them as
ApexFeatures with the name rule of the base class. -/
noncomputable def polygonAssemble (points : List ApexPoint)
    (arcs : List (Option ArcFeature))
    (lines : List (Option (ApexPoint × ApexPoint × String))) : List ApexFeature :=
  (List.range points.length).flatMap (fun i =>
    (match lines.getD i none with
     | some (s, f, nm) => [ApexFeature.make s nm (.line s f)]
     | none => []) ++
    (match arcs.getD i none with
     | some a => [ApexFeature.make a.start (points.getD i default).name (.arc a)]
     | none => []))

/-- ApexPolygon.features_get, passes 1-3 (pass 4 only sets the unused
next/previous links): the ordered primitive chain for a point loop. -/
noncomputable def ApexPolygon.features_compute (points : List ApexPoint) :
    Except String (List ApexFeature) :=
  match exceptMapList (polygonArcAt points) (List.range points.length) with
  | .error e => .error e
  | .ok arcs =>
    match exceptMapList (polygonLineAt points arcs) (List.range points.length) with
    | .error e => .error e
    | .ok lines => .ok (polygonAssemble points arcs lines)

/-- The mutable state of an ApexPolygon: construction arguments plus the
memoization slot self._features (None until features_get stores into it). -/
structure ApexPolygonState where
  points : List ApexPoint
  depth : ℝ
  is_exterior : Bool
  name : String
  features : Option (List ApexFeature)

/-- ApexPolygon.features_get as a state transformer: it recomputes the
chain from the points and stores it into self._features unconditionally
(there is no memoization guard in the source), returning the tuple. -/
noncomputable def ApexPolygon.features_get (p : ApexPolygonState) :
    Except String (List ApexFeature × ApexPolygonState) :=
  match ApexPolygon.features_compute p.points with
  | .error e => .error e
  | .ok fs => .ok (fs, { p with features := some fs })

/-- The mutable state of an ApexCircle: construction arguments plus the
memoization slot self._circle_feature. -/
structure ApexCircleState where
  center : ApexPoint
  depth : ℝ
  flat : Bool
  is_exterior : Bool
  name : String
  circle_feature : Option ApexFeature

/-- ApexCircle.__init__ stores self._radius = center.radius. -/
def ApexCircle.radius (c : ApexCircleState) : ℝ :=
  c.center.radius

/-- ApexCircle.features_get as a state transformer: the feature is created
only when the slot is empty, otherwise the stored one is returned. -/
def ApexCircle.features_get (c : ApexCircleState) :
    List ApexFeature × ApexCircleState :=
  match c.circle_feature with
  | some cf => ([cf], c)
  | none =>
    let cf : ApexFeature :=
      ApexFeature.make c.center c.name (.circle c.center (ApexCircle.radius c))
    ([cf], { c with circle_feature := some cf })

/-- ApexCircle.constraints_append (source lines 1200-1241): raises when the
circle feature was never created; otherwise appends Radius, then DistanceX
and DistanceY pinning the circle center (key 3) to the origin feature
start (key 1), with the center coordinates as values. -/
def ApexCircle.constraints_append (origin_index : ℤ) (c : ApexCircleState)
    (constraints : List SketchConstraint) : Except String (List SketchConstraint) :=
  match c.circle_feature with
  | none => .error "does not have a feature yet."
  | some cf =>
    .ok (constraints ++
      [.Radius cf.index (ApexCircle.radius c),
       .DistanceX origin_index 1 cf.index 3 c.center.x,
       .DistanceY origin_index 1 cf.index 3 c.center.y])

/-- ApexElementKey: the frozen ordered dataclass with fields, in
declaration (and comparison) order: is_exterior, diameter, depth.
Float fields are modelled as rationals; the grouping component only
compares and never computes with them. -/
structure ApexElementKey where
  is_exterior : Bool
  diameter : ℚ
  depth : ℚ
deriving DecidableEq, Inhabited

/-- The dataclass(order=True) comparison: lexicographic less-or-equal on
(is_exterior, diameter, depth), with False < True for the Bool field. -/
def ApexElementKey.le (a b : ApexElementKey) : Bool :=
  (!a.is_exterior && b.is_exterior) ||
  (a.is_exterior == b.is_exterior &&
    (a.diameter < b.diameter || (a.diameter == b.diameter && a.depth ≤ b.depth)))

/-- The data of an ApexElement that ApexDrawing.plane_process consults:
the key fields stored by ApexElement.__init__ plus the name. -/
structure ApexElementG where
  is_exterior : Bool
  diameter : ℚ
  depth : ℚ
  name : String
deriving DecidableEq, Inhabited

/-- ApexElement.key: the ApexElementKey built by ApexElement.__init__ from
the element arguments. -/
def ApexElementG.key (e : ApexElementG) : ApexElementKey :=
  ⟨e.is_exterior, e.diameter, e.depth⟩

/-- The distinct keys of the element list, in first-appearance order (the
iteration order of the Python dict built by plane_process). -/
def groupKeys (elements : List ApexElementG) : List ApexElementKey :=
  (elements.map ApexElementG.key).dedup

/-- The group of a key: the elements with that key, in input order (the
order in which plane_process appends them to the dict entry). -/
def groupFor (elements : List ApexElementG) (k : ApexElementKey) : List ApexElementG :=
  elements.filter (fun e => e.key == k)

/-- The descending order relation used for sorted(groups.keys(),
reverse=True). -/
def keyGE (a b : ApexElementKey) : Prop :=
  ApexElementKey.le b a = true

instance : DecidableRel keyGE := fun a b => by
  unfold keyGE; infer_instance

/-- The keys sorted descending, as sorted(..., reverse=True) produces
(keys are distinct, so stability is irrelevant). -/
def sortedKeysDescending (elements : List ApexElementG) : List ApexElementKey :=
  List.insertionSort keyGE (groupKeys elements)

/-- The per-group body of the plane_process loop (source lines 1569-1584),
restricted to its validation and grouping outcome: a group with an
exterior key must have exactly one element, whose depth must be positive.
The source reads group[0] before these checks; groups are never empty
since keys come from elements, so getD with a default is faithful. -/
def planeProcessGroup (elements : List ApexElementG) (k : ApexElementKey) :
    Except String (ApexElementKey × List ApexElementG) :=
  let group : List ApexElementG := groupFor elements k
  let group0 : ApexElementG := group.getD 0 default
  if k.is_exterior then
    if group.length ≠ 1 then .error "Exterior should be all by itself"
    else if group0.depth ≤ 0 then .error "Exterior depth is not positive."
    else .ok (k, group)
  else .ok (k, group)

/-- The grouping portion of ApexDrawing.plane_process (source lines
1557-1584): partition the elements by key, then emit the groups in
descending key order, validating exterior groups. -/
def planeProcessGroups (elements : List ApexElementG) :
    Except String (List (ApexElementKey × List ApexElementG)) :=
  exceptMapList (planeProcessGroup elements) (sortedKeysDescending elements)

/-- The name rule shared by the reorient methods: an empty (or None)
suffix yields the empty name, otherwise the suffix is appended. -/
def reorientName (name : String) (suffix : Option String) : String :=
  match suffix with
  | none => ""
  | some s => if s = "" then "" else name ++ s

/-- Modelled from the spec: applying a FreeCAD Placement to a point is an
external rigid-transform utility, modelled as an arbitrary coordinate map;
ApexPoint.reorient (Apex module) applies it and renames by the suffix
rule, keeping the identity fields. -/
def ApexPoint.reorient (p : ApexPoint) (placement : ApexPoint → ApexPoint)
    (suffix : Option String) : ApexPoint :=
  let q : ApexPoint := placement p
  { q with radius := p.radius, diameter := p.diameter,
           name := reorientName p.name suffix }

/-- ApexPolygon.reorient (source lines 1093-1123): the new name is
self._name + suffix when the suffix string is non-empty, else the empty
string; every point is reoriented with that new name passed as its
suffix; a fresh polygon is constructed (so its memo slot is empty). -/
def ApexPolygon.reorient (p : ApexPolygonState)
    (placement : ApexPoint → ApexPoint) (suffix : String) : ApexPolygonState :=
  let name : String := if suffix = "" then "" else p.name ++ suffix
  { points := p.points.map (fun ap => ap.reorient placement (some name)),
    depth := p.depth, is_exterior := p.is_exterior, name := name,
    features := none }

/-- ApexCircle.reorient (source lines 1277-1296): the new name follows the
suffix rule; the center is reoriented with the same suffix; the fresh
circle falls back to the (reoriented) center name when the new name is
empty, as ApexCircle.__init__ does. -/
def ApexCircle.reorient (c : ApexCircleState)
    (placement : ApexPoint → ApexPoint) (suffix : Option String) : ApexCircleState :=
  let name : String := reorientName c.name suffix
  let ctr : ApexPoint := c.center.reorient placement suffix
  { center := ctr, depth := c.depth, flat := c.flat,
    is_exterior := c.is_exterior,
    name := if name = "" then ctr.name else name,
    circle_feature := none }

/-! Helper lemmas: evaluating the point arithmetic, atan2, pymod, the sweep
normalization and the arc solver on concrete data. -/

lemma ApexPoint.sub_def (p q : ApexPoint) :
    p - q = ⟨p.x - q.x, p.y - q.y, p.z - q.z, 0, 0, ""⟩ := rfl

lemma ApexPoint.add_def (p q : ApexPoint) :
    p + q = ⟨p.x + q.x, p.y + q.y, p.z + q.z, 0, 0, ""⟩ := rfl

lemma normalize_2d_eval (p : ApexPoint) (L ux uy : ℝ)
    (hL : Real.sqrt (p.x * p.x + p.y * p.y) = L) (h0 : ¬ L = 0)
    (hux : p.x / L = ux) (huy : p.y / L = uy) :
    normalize_2d p = .ok ⟨ux, uy, 0, 0, 0, ""⟩ := by
  unfold normalize_2d
  rw [hL, if_neg h0, hux, huy]

lemma pymod_small (a b : ℝ) (h0 : 0 ≤ a / b) (h1 : a / b < 1) :
    pymod a b = a := by
  unfold pymod
  rw [Int.floor_eq_zero_iff.mpr (Set.mem_Ico.mpr ⟨h0, h1⟩)]
  simp

lemma arg_mk_pos_x (x : ℝ) (hx : 0 < x) : Complex.arg ⟨x, 0⟩ = 0 := by
  have h : (⟨x, 0⟩ : ℂ) = ((x : ℝ) : ℂ) := by apply Complex.ext <;> simp
  rw [h, Complex.arg_ofReal_of_nonneg hx.le]

lemma arg_mk_neg_x (x : ℝ) (hx : 0 < x) : Complex.arg ⟨-x, 0⟩ = Real.pi := by
  have h : (⟨-x, 0⟩ : ℂ) = ((-x : ℝ) : ℂ) := by apply Complex.ext <;> simp
  rw [h, Complex.arg_ofReal_of_neg (by linarith)]

lemma arg_mk_pos_y (y : ℝ) (hy : 0 < y) : Complex.arg ⟨0, y⟩ = Real.pi / 2 := by
  have h : (⟨0, y⟩ : ℂ) = ((y : ℝ) : ℂ) * Complex.I := by apply Complex.ext <;> simp
  rw [h, Complex.arg_real_mul _ hy, Complex.arg_I]

lemma arg_mk_neg_y (y : ℝ) (hy : 0 < y) : Complex.arg ⟨0, -y⟩ = -(Real.pi / 2) := by
  have h : (⟨0, -y⟩ : ℂ) = ((y : ℝ) : ℂ) * (-Complex.I) := by
    apply Complex.ext <;> simp
  rw [h, Complex.arg_real_mul _ hy, Complex.arg_neg_I]

lemma arg_mk_diag (c : ℝ) (hc : 0 < c) : Complex.arg ⟨c, c⟩ = Real.pi / 4 := by
  have hs2 : Real.sqrt 2 * Real.sqrt 2 = 2 := Real.mul_self_sqrt (by norm_num)
  have hs2pos : (0 : ℝ) < Real.sqrt 2 := Real.sqrt_pos.mpr (by norm_num)
  have h : (⟨c, c⟩ : ℂ) =
      ((c * Real.sqrt 2 : ℝ) : ℂ) *
        (((Real.cos (Real.pi / 4) : ℝ) : ℂ) +
         ((Real.sin (Real.pi / 4) : ℝ) : ℂ) * Complex.I) := by
    apply Complex.ext <;>
      simp [Real.cos_pi_div_four, Real.sin_pi_div_four] <;> nlinarith [hs2]
  rw [h, Complex.arg_real_mul _ (by positivity), Complex.ofReal_cos, Complex.ofReal_sin,
    Complex.arg_cos_add_sin_mul_I
      ⟨by nlinarith [Real.pi_pos], by nlinarith [Real.pi_pos]⟩]

lemma arg_mk_antidiag (c : ℝ) (hc : 0 < c) :
    Complex.arg ⟨-c, c⟩ = 3 * Real.pi / 4 := by
  have hs2 : Real.sqrt 2 * Real.sqrt 2 = 2 := Real.mul_self_sqrt (by norm_num)
  have hs2pos : (0 : ℝ) < Real.sqrt 2 := Real.sqrt_pos.mpr (by norm_num)
  have hcos : Real.cos (3 * Real.pi / 4) = -(Real.sqrt 2 / 2) := by
    rw [show 3 * Real.pi / 4 = Real.pi - Real.pi / 4 by ring, Real.cos_pi_sub,
      Real.cos_pi_div_four]
  have hsin : Real.sin (3 * Real.pi / 4) = Real.sqrt 2 / 2 := by
    rw [show 3 * Real.pi / 4 = Real.pi - Real.pi / 4 by ring, Real.sin_pi_sub,
      Real.sin_pi_div_four]
  have h : (⟨-c, c⟩ : ℂ) =
      ((c * Real.sqrt 2 : ℝ) : ℂ) *
        (((Real.cos (3 * Real.pi / 4) : ℝ) : ℂ) +
         ((Real.sin (3 * Real.pi / 4) : ℝ) : ℂ) * Complex.I) := by
    apply Complex.ext <;> simp [hcos, hsin] <;> nlinarith [hs2]
  rw [h, Complex.arg_real_mul _ (by positivity), Complex.ofReal_cos, Complex.ofReal_sin,
    Complex.arg_cos_add_sin_mul_I
      ⟨by nlinarith [Real.pi_pos], by nlinarith [Real.pi_pos]⟩]

lemma sweepNormalize_mem (d : ℝ) (hlo : -(2 * Real.pi) < d) (hhi : d < 2 * Real.pi) :
    sweepNormalize d ∈ Set.Ioc (-Real.pi) Real.pi := by
  unfold sweepNormalize
  split_ifs with h1 h2
  · exact ⟨by nlinarith [Real.pi_pos], by nlinarith [Real.pi_pos]⟩
  · exact ⟨by nlinarith [Real.pi_pos], by nlinarith [Real.pi_pos]⟩
  · exact ⟨by nlinarith [Real.pi_pos], by nlinarith [Real.pi_pos]⟩

lemma solve_spec (begin_ apex end_ u_ab u_ae u_am : ApexPoint)
    (sac ac as sa fa sw : ℝ) (c s f : ApexPoint)
    (hr : ¬ apex.radius < 1e-10)
    (h1 : normalize_2d (begin_ - apex) = .ok u_ab)
    (h2 : normalize_2d (end_ - apex) = .ok u_ae)
    (h3 : normalize_2d (u_ab + u_ae) = .ok u_am)
    (hsac : pymod |(begin_ - apex).atan2 - u_am.atan2| Real.pi = sac)
    (hsin : ¬ Real.sin sac = 0)
    (hac : apex.radius / Real.sin sac = ac)
    (has : Real.sqrt (ac * ac - apex.radius * apex.radius) = as)
    (hc : apex + u_am.scale ac = c)
    (hs : apex + u_ab.scale as = s)
    (hf : apex + u_ae.scale as = f)
    (hsa : (s - c).atan2 = sa)
    (hfa : (f - c).atan2 = fa)
    (hsw : sweepNormalize (fa - sa) = sw) :
    ApexArcFeature.solve begin_ apex end_ = .ok
      { apex := apex, begin_ := begin_, center := c, end_ := end_,
        finish := f, finish_angle := fa, finish_length := as,
        radius := apex.radius, start := s, sweep_angle := sw,
        start_angle := if sw < 0 then sa + sw else sa,
        start_length := as } := by
  unfold ApexArcFeature.solve
  rw [if_neg hr]
  dsimp only
  rw [h1]
  dsimp only
  rw [h2]
  dsimp only
  rw [h3]
  dsimp only
  rw [hsac, if_neg hsin, hac, has, hc, hs, hf, hsa, hfa, hsw]

lemma exceptMapList_ok_mem {α β : Type} (f : α → Except String β) (l : List α)
    (ys : List β) (h : exceptMapList f l = .ok ys) :
    ∀ x ∈ l, ∃ y, f x = .ok y := by
  induction l generalizing ys with
  | nil => intro x hx; cases hx
  | cons a t ih =>
    intro x hx
    unfold exceptMapList at h
    cases hfa : f a with
    | error e => rw [hfa] at h; cases h
    | ok y =>
      rw [hfa] at h
      cases ht : exceptMapList f t with
      | error e => rw [ht] at h; cases h
      | ok ys2 =>
        rw [ht] at h
        cases hx with
        | head => exact ⟨y, hfa⟩
        | tail _ hmem => exact ih ys2 ht x hmem

lemma sqrt_two_ne_zero : Real.sqrt 2 ≠ 0 := by positivity

lemma sqrt_two_mul_self : Real.sqrt 2 * Real.sqrt 2 = 2 :=
  Real.mul_self_sqrt (by norm_num)

lemma solve_sac_quarter_pi :
    pymod |Real.pi - 3 * Real.pi / 4| Real.pi = Real.pi / 4 := by
  rw [show Real.pi - 3 * Real.pi / 4 = Real.pi / 4 by ring,
    abs_of_nonneg (by positivity)]
  exact pymod_small _ _ (by positivity)
    ((div_lt_one Real.pi_pos).mpr (by nlinarith [Real.pi_pos]))

lemma solve_sac_quarter_pi2 :
    pymod |Real.pi / 2 - Real.pi / 4| Real.pi = Real.pi / 4 := by
  rw [show Real.pi / 2 - Real.pi / 4 = Real.pi / 4 by ring,
    abs_of_nonneg (by positivity)]
  exact pymod_small _ _ (by positivity)
    ((div_lt_one Real.pi_pos).mpr (by nlinarith [Real.pi_pos]))

lemma solve_sin_sac_ne : ¬ Real.sin (Real.pi / 4) = 0 := by
  rw [Real.sin_pi_div_four]
  positivity

lemma solve_ac_eval (r : ℝ) : r / Real.sin (Real.pi / 4) = r * Real.sqrt 2 := by
  rw [Real.sin_pi_div_four, div_div_eq_mul_div, div_eq_iff sqrt_two_ne_zero]
  linear_combination (-r) * sqrt_two_mul_self

lemma solve_as_eval (r : ℝ) (hr0 : 0 ≤ r) :
    Real.sqrt (r * Real.sqrt 2 * (r * Real.sqrt 2) - r * r) = r := by
  rw [show r * Real.sqrt 2 * (r * Real.sqrt 2) - r * r = r ^ 2 by
    linear_combination r * r * sqrt_two_mul_self]
  exact Real.sqrt_sq hr0

lemma solve_corner_WN (ax ay az bz ez bx ey r r1 d1 r2 d2 dr : ℝ) (n1 n2 n3 : String)
    (hbx : 0 < bx) (hey : 0 < ey) (hr : ¬ r < 1e-10) :
    ApexArcFeature.solve ⟨ax - bx, ay, bz, r1, d1, n1⟩ ⟨ax, ay, az, r, dr, n3⟩
      ⟨ax, ay + ey, ez, r2, d2, n2⟩ = .ok
      { apex := ⟨ax, ay, az, r, dr, n3⟩,
        begin_ := ⟨ax - bx, ay, bz, r1, d1, n1⟩,
        center := ⟨ax - r, ay + r, az, 0, 0, ""⟩,
        end_ := ⟨ax, ay + ey, ez, r2, d2, n2⟩,
        finish := ⟨ax, ay + r, az, 0, 0, ""⟩,
        finish_angle := 0, finish_length := r, radius := r,
        start := ⟨ax - r, ay, az, 0, 0, ""⟩,
        sweep_angle := Real.pi / 2, start_angle := -(Real.pi / 2),
        start_length := r } := by
  have hrpos : (0:ℝ) < r := lt_of_lt_of_le (by norm_num) (not_lt.mp hr)
  have hsub_ab : (⟨ax - bx, ay, bz, r1, d1, n1⟩ - ⟨ax, ay, az, r, dr, n3⟩ : ApexPoint)
      = ⟨-bx, 0, bz - az, 0, 0, ""⟩ := by
    rw [ApexPoint.sub_def]
    congr 1 <;> first | rfl | ring
  have hsub_ae : (⟨ax, ay + ey, ez, r2, d2, n2⟩ - ⟨ax, ay, az, r, dr, n3⟩ : ApexPoint)
      = ⟨0, ey, ez - az, 0, 0, ""⟩ := by
    rw [ApexPoint.sub_def]
    congr 1 <;> first | rfl | ring
  have h1 : normalize_2d
      ((⟨ax - bx, ay, bz, r1, d1, n1⟩ : ApexPoint) - ⟨ax, ay, az, r, dr, n3⟩)
      = .ok ⟨-1, 0, 0, 0, 0, ""⟩ := by
    rw [hsub_ab]
    exact normalize_2d_eval _ bx (-1) 0
      (by rw [show -bx * -bx + (0:ℝ) * 0 = bx ^ 2 by ring]; exact Real.sqrt_sq hbx.le)
      (ne_of_gt hbx)
      (by rw [neg_div, div_self (ne_of_gt hbx)])
      (zero_div bx)
  have h2 : normalize_2d
      ((⟨ax, ay + ey, ez, r2, d2, n2⟩ : ApexPoint) - ⟨ax, ay, az, r, dr, n3⟩)
      = .ok ⟨0, 1, 0, 0, 0, ""⟩ := by
    rw [hsub_ae]
    exact normalize_2d_eval _ ey 0 1
      (by rw [show (0:ℝ) * 0 + ey * ey = ey ^ 2 by ring]; exact Real.sqrt_sq hey.le)
      (ne_of_gt hey)
      (zero_div ey)
      (div_self (ne_of_gt hey))
  have hadd : ((⟨-1, 0, 0, 0, 0, ""⟩ : ApexPoint) + ⟨0, 1, 0, 0, 0, ""⟩)
      = (⟨-1, 1, 0, 0, 0, ""⟩ : ApexPoint) := by
    rw [ApexPoint.add_def]
    congr 1 <;> first | rfl | ring
  have h3 : normalize_2d ((⟨-1, 0, 0, 0, 0, ""⟩ : ApexPoint) + ⟨0, 1, 0, 0, 0, ""⟩)
      = .ok ⟨-(1 / Real.sqrt 2), 1 / Real.sqrt 2, 0, 0, 0, ""⟩ := by
    rw [hadd]
    exact normalize_2d_eval _ (Real.sqrt 2) (-(1 / Real.sqrt 2)) (1 / Real.sqrt 2)
      (by rw [show (-1:ℝ) * -1 + 1 * 1 = 2 by norm_num])
      sqrt_two_ne_zero
      (by rw [neg_div])
      rfl
  have hab : ApexPoint.atan2
      ((⟨ax - bx, ay, bz, r1, d1, n1⟩ : ApexPoint) - ⟨ax, ay, az, r, dr, n3⟩)
      = Real.pi := by
    rw [hsub_ab]
    show Complex.arg ⟨-bx, 0⟩ = Real.pi
    exact arg_mk_neg_x bx hbx
  have ham : ApexPoint.atan2 ⟨-(1 / Real.sqrt 2), 1 / Real.sqrt 2, 0, 0, 0, ""⟩
      = 3 * Real.pi / 4 := by
    show Complex.arg ⟨-(1 / Real.sqrt 2), 1 / Real.sqrt 2⟩ = 3 * Real.pi / 4
    exact arg_mk_antidiag (1 / Real.sqrt 2) (by positivity)
  have hsac : pymod
      |ApexPoint.atan2 ((⟨ax - bx, ay, bz, r1, d1, n1⟩ : ApexPoint) -
         ⟨ax, ay, az, r, dr, n3⟩) -
       ApexPoint.atan2 ⟨-(1 / Real.sqrt 2), 1 / Real.sqrt 2, 0, 0, 0, ""⟩|
      Real.pi = Real.pi / 4 := by
    rw [hab, ham]
    exact solve_sac_quarter_pi
  have hkey : 1 / Real.sqrt 2 * (r * Real.sqrt 2) = r := by
    rw [div_mul_eq_mul_div, one_mul, mul_div_assoc, div_self sqrt_two_ne_zero,
      mul_one]
  have hc : (⟨ax, ay, az, r, dr, n3⟩ : ApexPoint) +
      ApexPoint.scale ⟨-(1 / Real.sqrt 2), 1 / Real.sqrt 2, 0, 0, 0, ""⟩ (r * Real.sqrt 2)
      = ⟨ax - r, ay + r, az, 0, 0, ""⟩ := by
    simp only [ApexPoint.scale]
    rw [ApexPoint.add_def]
    congr 1 <;>
      first | rfl | linear_combination -hkey | linear_combination hkey | ring
  have hs : (⟨ax, ay, az, r, dr, n3⟩ : ApexPoint) +
      ApexPoint.scale ⟨-1, 0, 0, 0, 0, ""⟩ r = ⟨ax - r, ay, az, 0, 0, ""⟩ := by
    simp only [ApexPoint.scale]
    rw [ApexPoint.add_def]
    congr 1 <;> first | rfl | ring
  have hf : (⟨ax, ay, az, r, dr, n3⟩ : ApexPoint) +
      ApexPoint.scale ⟨0, 1, 0, 0, 0, ""⟩ r = ⟨ax, ay + r, az, 0, 0, ""⟩ := by
    simp only [ApexPoint.scale]
    rw [ApexPoint.add_def]
    congr 1 <;> first | rfl | ring
  have hsc : ((⟨ax - r, ay, az, 0, 0, ""⟩ : ApexPoint) - ⟨ax - r, ay + r, az, 0, 0, ""⟩)
      = (⟨0, -r, 0, 0, 0, ""⟩ : ApexPoint) := by
    rw [ApexPoint.sub_def]
    congr 1 <;> first | rfl | ring
  have hsa : ApexPoint.atan2
      ((⟨ax - r, ay, az, 0, 0, ""⟩ : ApexPoint) - ⟨ax - r, ay + r, az, 0, 0, ""⟩)
      = -(Real.pi / 2) := by
    rw [hsc]
    show Complex.arg ⟨0, -r⟩ = -(Real.pi / 2)
    exact arg_mk_neg_y r hrpos
  have hfc : ((⟨ax, ay + r, az, 0, 0, ""⟩ : ApexPoint) - ⟨ax - r, ay + r, az, 0, 0, ""⟩)
      = (⟨r, 0, 0, 0, 0, ""⟩ : ApexPoint) := by
    rw [ApexPoint.sub_def]
    congr 1 <;> first | rfl | ring
  have hfa : ApexPoint.atan2
      ((⟨ax, ay + r, az, 0, 0, ""⟩ : ApexPoint) - ⟨ax - r, ay + r, az, 0, 0, ""⟩)
      = 0 := by
    rw [hfc]
    show Complex.arg ⟨r, 0⟩ = 0
    exact arg_mk_pos_x r hrpos
  have hsw : sweepNormalize (0 - -(Real.pi / 2)) = Real.pi / 2 := by
    rw [show (0:ℝ) - -(Real.pi / 2) = Real.pi / 2 by ring]
    unfold sweepNormalize
    rw [if_neg (by nlinarith [Real.pi_pos]), if_neg (by nlinarith [Real.pi_pos])]
  have hmain := solve_spec _ _ _ _ _ _ _ _ _ _ _ _ _ _ _
    hr h1 h2 h3 hsac solve_sin_sac_ne (solve_ac_eval r) (solve_as_eval r hrpos.le)
    hc hs hf hsa hfa hsw
  rw [hmain, if_neg (not_lt.mpr (by positivity : (0:ℝ) ≤ Real.pi / 2))]

lemma solve_corner_NE (ax ay az bz ez by_ ex r r1 d1 r2 d2 dr : ℝ) (n1 n2 n3 : String)
    (hby : 0 < by_) (hex : 0 < ex) (hr : ¬ r < 1e-10) :
    ApexArcFeature.solve ⟨ax, ay + by_, bz, r1, d1, n1⟩ ⟨ax, ay, az, r, dr, n3⟩
      ⟨ax + ex, ay, ez, r2, d2, n2⟩ = .ok
      { apex := ⟨ax, ay, az, r, dr, n3⟩,
        begin_ := ⟨ax, ay + by_, bz, r1, d1, n1⟩,
        center := ⟨ax + r, ay + r, az, 0, 0, ""⟩,
        end_ := ⟨ax + ex, ay, ez, r2, d2, n2⟩,
        finish := ⟨ax + r, ay, az, 0, 0, ""⟩,
        finish_angle := -(Real.pi / 2), finish_length := r, radius := r,
        start := ⟨ax, ay + r, az, 0, 0, ""⟩,
        sweep_angle := Real.pi / 2, start_angle := Real.pi,
        start_length := r } := by
  have hrpos : (0:ℝ) < r := lt_of_lt_of_le (by norm_num) (not_lt.mp hr)
  have hsub_ab : (⟨ax, ay + by_, bz, r1, d1, n1⟩ - ⟨ax, ay, az, r, dr, n3⟩ : ApexPoint)
      = ⟨0, by_, bz - az, 0, 0, ""⟩ := by
    rw [ApexPoint.sub_def]
    congr 1 <;> first | rfl | ring
  have hsub_ae : (⟨ax + ex, ay, ez, r2, d2, n2⟩ - ⟨ax, ay, az, r, dr, n3⟩ : ApexPoint)
      = ⟨ex, 0, ez - az, 0, 0, ""⟩ := by
    rw [ApexPoint.sub_def]
    congr 1 <;> first | rfl | ring
  have h1 : normalize_2d
      ((⟨ax, ay + by_, bz, r1, d1, n1⟩ : ApexPoint) - ⟨ax, ay, az, r, dr, n3⟩)
      = .ok ⟨0, 1, 0, 0, 0, ""⟩ := by
    rw [hsub_ab]
    exact normalize_2d_eval _ by_ 0 1
      (by rw [show (0:ℝ) * 0 + by_ * by_ = by_ ^ 2 by ring]; exact Real.sqrt_sq hby.le)
      (ne_of_gt hby)
      (zero_div by_)
      (div_self (ne_of_gt hby))
  have h2 : normalize_2d
      ((⟨ax + ex, ay, ez, r2, d2, n2⟩ : ApexPoint) - ⟨ax, ay, az, r, dr, n3⟩)
      = .ok ⟨1, 0, 0, 0, 0, ""⟩ := by
    rw [hsub_ae]
    exact normalize_2d_eval _ ex 1 0
      (by rw [show ex * ex + (0:ℝ) * 0 = ex ^ 2 by ring]; exact Real.sqrt_sq hex.le)
      (ne_of_gt hex)
      (div_self (ne_of_gt hex))
      (zero_div ex)
  have hadd : ((⟨0, 1, 0, 0, 0, ""⟩ : ApexPoint) + ⟨1, 0, 0, 0, 0, ""⟩)
      = (⟨1, 1, 0, 0, 0, ""⟩ : ApexPoint) := by
    rw [ApexPoint.add_def]
    congr 1 <;> first | rfl | ring
  have h3 : normalize_2d ((⟨0, 1, 0, 0, 0, ""⟩ : ApexPoint) + ⟨1, 0, 0, 0, 0, ""⟩)
      = .ok ⟨1 / Real.sqrt 2, 1 / Real.sqrt 2, 0, 0, 0, ""⟩ := by
    rw [hadd]
    exact normalize_2d_eval _ (Real.sqrt 2) (1 / Real.sqrt 2) (1 / Real.sqrt 2)
      (by rw [show (1:ℝ) * 1 + 1 * 1 = 2 by norm_num])
      sqrt_two_ne_zero
      rfl
      rfl
  have hab : ApexPoint.atan2
      ((⟨ax, ay + by_, bz, r1, d1, n1⟩ : ApexPoint) - ⟨ax, ay, az, r, dr, n3⟩)
      = Real.pi / 2 := by
    rw [hsub_ab]
    show Complex.arg ⟨0, by_⟩ = Real.pi / 2
    exact arg_mk_pos_y by_ hby
  have ham : ApexPoint.atan2 ⟨1 / Real.sqrt 2, 1 / Real.sqrt 2, 0, 0, 0, ""⟩
      = Real.pi / 4 := by
    show Complex.arg ⟨1 / Real.sqrt 2, 1 / Real.sqrt 2⟩ = Real.pi / 4
    exact arg_mk_diag (1 / Real.sqrt 2) (by positivity)
  have hsac : pymod
      |ApexPoint.atan2 ((⟨ax, ay + by_, bz, r1, d1, n1⟩ : ApexPoint) -
         ⟨ax, ay, az, r, dr, n3⟩) -
       ApexPoint.atan2 ⟨1 / Real.sqrt 2, 1 / Real.sqrt 2, 0, 0, 0, ""⟩|
      Real.pi = Real.pi / 4 := by
    rw [hab, ham]
    exact solve_sac_quarter_pi2
  have hkey : 1 / Real.sqrt 2 * (r * Real.sqrt 2) = r := by
    rw [div_mul_eq_mul_div, one_mul, mul_div_assoc, div_self sqrt_two_ne_zero,
      mul_one]
  have hc : (⟨ax, ay, az, r, dr, n3⟩ : ApexPoint) +
      ApexPoint.scale ⟨1 / Real.sqrt 2, 1 / Real.sqrt 2, 0, 0, 0, ""⟩ (r * Real.sqrt 2)
      = ⟨ax + r, ay + r, az, 0, 0, ""⟩ := by
    simp only [ApexPoint.scale]
    rw [ApexPoint.add_def]
    congr 1 <;>
      first | rfl | linear_combination hkey | ring
  have hs : (⟨ax, ay, az, r, dr, n3⟩ : ApexPoint) +
      ApexPoint.scale ⟨0, 1, 0, 0, 0, ""⟩ r = ⟨ax, ay + r, az, 0, 0, ""⟩ := by
    simp only [ApexPoint.scale]
    rw [ApexPoint.add_def]
    congr 1 <;> first | rfl | ring
  have hf : (⟨ax, ay, az, r, dr, n3⟩ : ApexPoint) +
      ApexPoint.scale ⟨1, 0, 0, 0, 0, ""⟩ r = ⟨ax + r, ay, az, 0, 0, ""⟩ := by
    simp only [ApexPoint.scale]
    rw [ApexPoint.add_def]
    congr 1 <;> first | rfl | ring
  have hsc : ((⟨ax, ay + r, az, 0, 0, ""⟩ : ApexPoint) - ⟨ax + r, ay + r, az, 0, 0, ""⟩)
      = (⟨-r, 0, 0, 0, 0, ""⟩ : ApexPoint) := by
    rw [ApexPoint.sub_def]
    congr 1 <;> first | rfl | ring
  have hsa : ApexPoint.atan2
      ((⟨ax, ay + r, az, 0, 0, ""⟩ : ApexPoint) - ⟨ax + r, ay + r, az, 0, 0, ""⟩)
      = Real.pi := by
    rw [hsc]
    show Complex.arg ⟨-r, 0⟩ = Real.pi
    exact arg_mk_neg_x r hrpos
  have hfc : ((⟨ax + r, ay, az, 0, 0, ""⟩ : ApexPoint) - ⟨ax + r, ay + r, az, 0, 0, ""⟩)
      = (⟨0, -r, 0, 0, 0, ""⟩ : ApexPoint) := by
    rw [ApexPoint.sub_def]
    congr 1 <;> first | rfl | ring
  have hfa : ApexPoint.atan2
      ((⟨ax + r, ay, az, 0, 0, ""⟩ : ApexPoint) - ⟨ax + r, ay + r, az, 0, 0, ""⟩)
      = -(Real.pi / 2) := by
    rw [hfc]
    show Complex.arg ⟨0, -r⟩ = -(Real.pi / 2)
    exact arg_mk_neg_y r hrpos
  have hsw : sweepNormalize (-(Real.pi / 2) - Real.pi) = Real.pi / 2 := by
    unfold sweepNormalize
    rw [if_neg (by nlinarith [Real.pi_pos]), if_pos (by nlinarith [Real.pi_pos])]
    ring
  have hmain := solve_spec _ _ _ _ _ _ _ _ _ _ _ _ _ _ _
    hr h1 h2 h3 hsac solve_sin_sac_ne (solve_ac_eval r) (solve_as_eval r hrpos.le)
    hc hs hf hsa hfa hsw
  rw [hmain, if_neg (not_lt.mpr (by positivity : (0:ℝ) ≤ Real.pi / 2))]

lemma atan2_mem_Ioc (p : ApexPoint) :
    p.atan2 ∈ Set.Ioc (-Real.pi) Real.pi :=
  Complex.arg_mem_Ioc _

lemma sweep_diff_mem (p q : ApexPoint) :
    sweepNormalize (p.atan2 - q.atan2) ∈ Set.Ioc (-Real.pi) Real.pi := by
  have h1 := atan2_mem_Ioc p
  have h2 := atan2_mem_Ioc q
  exact sweepNormalize_mem _ (by have := h1.1; have := h2.2; linarith)
    (by have := h1.2; have := h2.1; linarith)

/-- The begin point of the concrete scenario of spec section 8: the corner
of the square at (10, 0) rounded with radius 2. -/
def c2Begin : ApexPoint := ⟨0, 0, 0, 0, 0, "begin"⟩

/-- The apex point (10, 0) with rounding radius 2. -/
def c2Apex : ApexPoint := ⟨10, 0, 0, 2, 4, "apex"⟩

/-- The end point (10, 10). -/
def c2End : ApexPoint := ⟨10, 10, 0, 0, 0, "end"⟩

/-- The arc the solver produces for the square-corner scenario. -/
noncomputable def c2Arc : ArcFeature :=
  { apex := c2Apex, begin_ := c2Begin, center := ⟨8, 2, 0, 0, 0, ""⟩,
    end_ := c2End, finish := ⟨10, 2, 0, 0, 0, ""⟩, finish_angle := 0,
    finish_length := 2, radius := 2, start := ⟨8, 0, 0, 0, 0, ""⟩,
    sweep_angle := Real.pi / 2, start_angle := -(Real.pi / 2), start_length := 2 }

lemma solve_c2_eval : ApexArcFeature.solve c2Begin c2Apex c2End = .ok c2Arc := by
  have h := solve_corner_WN 10 0 0 0 0 10 10 2 0 0 0 0 4 "begin" "end" "apex"
    (by norm_num) (by norm_num) (by norm_num)
  norm_num at h
  simp only [c2Begin, c2Apex, c2End, c2Arc]
  exact h

/-- C2: on begin=(0,0), apex=(10,0), end=(10,10), radius=2 the arc solver
returns center=(8,2), start tangent point (8,0), finish tangent point
(10,2), apex-to-tangent lengths start_length = finish_length = 2, and a
sweep angle of magnitude pi/2 (these exact values are visible in the
c2Arc record; exact equality implies equality within floating tolerance). -/
theorem spec_c2_arc_solver_square_corner :
    ApexArcFeature.solve c2Begin c2Apex c2End = .ok c2Arc ∧
    c2Arc.center = ⟨8, 2, 0, 0, 0, ""⟩ ∧
    c2Arc.start = ⟨8, 0, 0, 0, 0, ""⟩ ∧
    c2Arc.finish = ⟨10, 2, 0, 0, 0, ""⟩ ∧
    c2Arc.start_length = 2 ∧
    c2Arc.finish_length = 2 ∧
    |c2Arc.sweep_angle| = Real.pi / 2 := by
  refine ⟨solve_c2_eval, rfl, rfl, rfl, rfl, rfl, ?_⟩
  show |Real.pi / 2| = Real.pi / 2
  exact abs_of_nonneg (by positivity)

/-- C8: every arc the solver produces has its sweep angle in (-pi, pi],
hence of absolute value at most pi: the sweep is a difference of two atan2
values, renormalized once by 2*pi when it leaves that interval. -/
theorem spec_c8_sweep_angle_range (b a e : ApexPoint) (arc : ArcFeature)
    (h : ApexArcFeature.solve b a e = .ok arc) :
    arc.sweep_angle ∈ Set.Ioc (-Real.pi) Real.pi ∧ |arc.sweep_angle| ≤ Real.pi := by
  unfold ApexArcFeature.solve at h
  dsimp only at h
  repeat' split at h
  all_goals try exact Except.noConfusion h
  all_goals
    injection h with heq
    subst heq
    dsimp only
    exact ⟨sweep_diff_mem _ _,
      abs_le.mpr ⟨(sweep_diff_mem _ _).1.le, (sweep_diff_mem _ _).2⟩⟩

/-- Witness for C8 at the concrete square-corner input. -/
theorem spec_c8_sweep_angle_range_witness :
    c2Arc.sweep_angle ∈ Set.Ioc (-Real.pi) Real.pi ∧ |c2Arc.sweep_angle| ≤ Real.pi :=
  spec_c8_sweep_angle_range c2Begin c2Apex c2End c2Arc solve_c2_eval

/-- An arc record with a negative sweep angle (-1); the other fields are
irrelevant to the anchor-key computation. -/
def c1NegArc : ArcFeature :=
  { apex := ⟨0, 0, 0, 0, 0, ""⟩, begin_ := ⟨0, 0, 0, 0, 0, ""⟩,
    center := ⟨0, 0, 0, 0, 0, ""⟩, end_ := ⟨0, 0, 0, 0, 0, ""⟩,
    finish := ⟨0, 0, 0, 0, 0, ""⟩, finish_angle := 0, finish_length := 0,
    radius := 1, start := ⟨0, 0, 0, 0, 0, ""⟩, sweep_angle := -1,
    start_angle := 0, start_length := 0 }

/-- Counterexample to C1: for an arc with sweep_angle = -1 < 0 the code
returns start_key = 1 and finish_key = 2 (the line-feature defaults), not
the swapped keys start_key = 2, finish_key = 1 that the claim asserts. -/
theorem spec_c1_counterexample :
    c1NegArc.sweep_angle < 0 ∧
    (ApexFeature.mk 0 "" (.arc c1NegArc)).start_key = 1 ∧
    (ApexFeature.mk 0 "" (.arc c1NegArc)).finish_key = 2 ∧
    ¬ ((ApexFeature.mk 0 "" (.arc c1NegArc)).start_key = 2 ∧
       (ApexFeature.mk 0 "" (.arc c1NegArc)).finish_key = 1) := by
  have hneg : c1NegArc.sweep_angle < 0 := by
    show (-1 : ℝ) < 0
    norm_num
  refine ⟨hneg, ?_, ?_, ?_⟩
  · show (if c1NegArc.sweep_angle < 0 then (1:ℤ) else 2) = 1
    rw [if_pos hneg]
  · show (if c1NegArc.sweep_angle < 0 then (2:ℤ) else 1) = 2
    rw [if_pos hneg]
  · intro hcl
    have h1 : (ApexFeature.mk 0 "" (.arc c1NegArc)).start_key = 1 := by
      show (if c1NegArc.sweep_angle < 0 then (1:ℤ) else 2) = 1
      rw [if_pos hneg]
    rw [h1] at hcl
    exact absurd hcl.1 (by norm_num)

/-- C1 amended: the Start/Finish anchor keys of a solved arc are swapped
exactly when sweep_angle is non-negative: if sweep_angle < 0 the keys are
the defaults start_key = 1, finish_key = 2, and if sweep_angle >= 0 they
are swapped to start_key = 2, finish_key = 1 (ApexArcFeature.start_key and
ApexArcFeature.finish_key, source lines 381-386 and 430-435). -/
theorem spec_c1_arc_anchor_keys (idx : ℤ) (nm : String) (a : ArcFeature) :
    (a.sweep_angle < 0 →
      (ApexFeature.mk idx nm (.arc a)).start_key = 1 ∧
      (ApexFeature.mk idx nm (.arc a)).finish_key = 2) ∧
    (0 ≤ a.sweep_angle →
      (ApexFeature.mk idx nm (.arc a)).start_key = 2 ∧
      (ApexFeature.mk idx nm (.arc a)).finish_key = 1) := by
  constructor
  · intro h
    constructor
    · show (if a.sweep_angle < 0 then (1:ℤ) else 2) = 1
      rw [if_pos h]
    · show (if a.sweep_angle < 0 then (2:ℤ) else 1) = 2
      rw [if_pos h]
  · intro h
    constructor
    · show (if a.sweep_angle < 0 then (1:ℤ) else 2) = 2
      rw [if_neg (not_lt.mpr h)]
    · show (if a.sweep_angle < 0 then (2:ℤ) else 1) = 1
      rw [if_neg (not_lt.mpr h)]

/-- Witness for the amended C1, at a negative-sweep arc and at the
positive-sweep square-corner arc. -/
theorem spec_c1_arc_anchor_keys_witness :
    ((ApexFeature.mk 0 "" (.arc c1NegArc)).start_key = 1 ∧
     (ApexFeature.mk 0 "" (.arc c1NegArc)).finish_key = 2) ∧
    ((ApexFeature.mk 0 "" (.arc c2Arc)).start_key = 2 ∧
     (ApexFeature.mk 0 "" (.arc c2Arc)).finish_key = 1) :=
  ⟨(spec_c1_arc_anchor_keys 0 "" c1NegArc).1 (by show (-1:ℝ) < 0; norm_num),
   (spec_c1_arc_anchor_keys 0 "" c2Arc).2
     (by show (0:ℝ) ≤ Real.pi / 2; positivity)⟩

/-- C3: at a chain position holding an arc, a Radius constraint for that
arc is emitted, and the DistanceX/DistanceY constraints pinning the arc
center (anchor key 3) to the origin feature are emitted exactly when it is
not the case that both the predecessor and the successor in the circular
chain are arcs (source lines 869-907). -/
theorem spec_c3_arc_center_pinning (origin_index : ℤ) (features : List ApexFeature)
    (i : ℕ) (hi : i < features.length) (a : ArcFeature)
    (ha : (features.getD i default).kind = FeatureKind.arc a) :
    SketchConstraint.Radius (features.getD i default).index a.radius
      ∈ constraintsAt origin_index features i ∧
    ((SketchConstraint.DistanceX origin_index 1 (features.getD i default).index 3
        a.center.x ∈ constraintsAt origin_index features i ∧
      SketchConstraint.DistanceY origin_index 1 (features.getD i default).index 3
        a.center.y ∈ constraintsAt origin_index features i) ↔
     ¬ ((features.getD ((i + features.length - 1) % features.length) default).isArc
          = true ∧
        (features.getD ((i + 1) % features.length) default).isArc = true)) := by
  have hAt : (features.getD i default).isArc = true := by
    unfold ApexFeature.isArc
    rw [ha]
  unfold constraintsAt
  dsimp only
  rw [ha, hAt]
  cases hb : (features.getD ((i + features.length - 1) % features.length)
      default).isArc <;>
    cases hc : (features.getD ((i + 1) % features.length) default).isArc <;>
    simp [hb, hc]

/-- C4: at each junction, when either the predecessor or the feature at
the position is an arc, exactly one Tangent constraint is emitted, binding
the predecessor's finish anchor key to the position's start anchor key;
otherwise the emitted constraints for the position are exactly Coincident,
DistanceX, DistanceY in that order, pinning the start point to the origin
with its coordinates as values (source lines 909-956). -/
theorem spec_c4_junction_rule (origin_index : ℤ) (features : List ApexFeature)
    (i : ℕ) (hi : i < features.length) :
    (((features.getD ((i + features.length - 1) % features.length) default).isArc
        = true ∨
      (features.getD i default).isArc = true) →
      ((constraintsAt origin_index features i).countP SketchConstraint.isTangent = 1 ∧
       SketchConstraint.Tangent
         (features.getD ((i + features.length - 1) % features.length) default).index
         (features.getD ((i + features.length - 1) % features.length)
           default).finish_key
         (features.getD i default).index
         (features.getD i default).start_key
         ∈ constraintsAt origin_index features i)) ∧
    (¬ (((features.getD ((i + features.length - 1) % features.length) default).isArc
          = true) ∨
        ((features.getD i default).isArc = true)) →
      constraintsAt origin_index features i =
        [SketchConstraint.Coincident
           (features.getD ((i + features.length - 1) % features.length) default).index
           (features.getD ((i + features.length - 1) % features.length)
             default).finish_key
           (features.getD i default).index
           (features.getD i default).start_key,
         SketchConstraint.DistanceX origin_index 1
           (features.getD i default).index
           (features.getD i default).start_key
           (features.getD i default).start.x,
         SketchConstraint.DistanceY origin_index 1
           (features.getD i default).index
           (features.getD i default).start_key
           (features.getD i default).start.y]) := by
  constructor
  · intro hor
    have hcond : ((features.getD ((i + features.length - 1) % features.length)
        default).isArc || (features.getD i default).isArc) = true := by
      rcases hor with h | h
      · rw [h, Bool.true_or]
      · rw [h, Bool.or_true]
    unfold constraintsAt
    dsimp only
    rw [if_pos hcond]
    constructor
    · rw [List.countP_append]
      cases hk : (features.getD i default).kind <;> dsimp only <;>
        first
          | (split <;>
              simp [SketchConstraint.isTangent, List.countP_append,
                List.countP_cons, List.countP_nil])
          | simp [SketchConstraint.isTangent, List.countP_append,
              List.countP_cons, List.countP_nil]
    · cases hk : (features.getD i default).kind <;> dsimp only <;>
        first
          | (split <;> simp)
          | simp
  · intro hnor
    have hb : (features.getD ((i + features.length - 1) % features.length)
        default).isArc = false := by
      rcases Bool.eq_false_or_eq_true ((features.getD
          ((i + features.length - 1) % features.length) default).isArc) with h | h
      · exact absurd (Or.inl h) hnor
      · exact h
    have hc : (features.getD i default).isArc = false := by
      rcases Bool.eq_false_or_eq_true ((features.getD i default).isArc) with h | h
      · exact absurd (Or.inr h) hnor
      · exact h
    unfold constraintsAt
    dsimp only
    rw [if_neg (by rw [hb, hc]; simp)]
    cases hk : (features.getD i default).kind <;> dsimp only
    case line s fi => rfl
    case point pt => rfl
    case circle ctr rad => rfl
    case arc a =>
      exfalso
      have : (features.getD i default).isArc = true := by
        unfold ApexFeature.isArc
        rw [hk]
      rw [this] at hc
      exact Bool.noConfusion hc

/-- A small chain (line, arc, line) used to exercise the constraint rules
at concrete positions. -/
noncomputable def w34Features : List ApexFeature :=
  [⟨1, "l1", .line ⟨0, 0, 0, 0, 0, ""⟩ ⟨8, 0, 0, 0, 0, ""⟩⟩,
   ⟨2, "a1", .arc c2Arc⟩,
   ⟨3, "l2", .line ⟨10, 2, 0, 0, 0, ""⟩ ⟨0, 0, 0, 0, 0, ""⟩⟩]

/-- Witness for C3 at position 1 (the arc) of the concrete chain. -/
theorem spec_c3_arc_center_pinning_witness :
    SketchConstraint.Radius (w34Features.getD 1 default).index c2Arc.radius
      ∈ constraintsAt 0 w34Features 1 ∧
    ((SketchConstraint.DistanceX 0 1 (w34Features.getD 1 default).index 3
        c2Arc.center.x ∈ constraintsAt 0 w34Features 1 ∧
      SketchConstraint.DistanceY 0 1 (w34Features.getD 1 default).index 3
        c2Arc.center.y ∈ constraintsAt 0 w34Features 1) ↔
     ¬ ((w34Features.getD ((1 + w34Features.length - 1) % w34Features.length)
           default).isArc = true ∧
        (w34Features.getD ((1 + 1) % w34Features.length) default).isArc = true)) :=
  spec_c3_arc_center_pinning 0 w34Features 1 (by show (1:ℕ) < 3; norm_num) c2Arc rfl

/-- Witness for C4: the arc junction at position 1 gets exactly one
Tangent; the line-line junction at position 0 gets the Coincident,
DistanceX, DistanceY triple. -/
theorem spec_c4_junction_rule_witness :
    (((constraintsAt 0 w34Features 1).countP SketchConstraint.isTangent = 1 ∧
      SketchConstraint.Tangent
        (w34Features.getD ((1 + w34Features.length - 1) % w34Features.length)
          default).index
        (w34Features.getD ((1 + w34Features.length - 1) % w34Features.length)
          default).finish_key
        (w34Features.getD 1 default).index
        (w34Features.getD 1 default).start_key
        ∈ constraintsAt 0 w34Features 1)) ∧
    constraintsAt 0 w34Features 0 =
      [SketchConstraint.Coincident
         (w34Features.getD ((0 + w34Features.length - 1) % w34Features.length)
           default).index
         (w34Features.getD ((0 + w34Features.length - 1) % w34Features.length)
           default).finish_key
         (w34Features.getD 0 default).index
         (w34Features.getD 0 default).start_key,
       SketchConstraint.DistanceX 0 1
         (w34Features.getD 0 default).index
         (w34Features.getD 0 default).start_key
         (w34Features.getD 0 default).start.x,
       SketchConstraint.DistanceY 0 1
         (w34Features.getD 0 default).index
         (w34Features.getD 0 default).start_key
         (w34Features.getD 0 default).start.y] :=
  ⟨(spec_c4_junction_rule 0 w34Features 1 (by show (1:ℕ) < 3; norm_num)).1
     (Or.inr rfl),
   (spec_c4_junction_rule 0 w34Features 0 (by show (0:ℕ) < 3; norm_num)).2
     (by intro hcl; rcases hcl with h | h <;> exact Bool.noConfusion h)⟩

/-- A circle state whose feature slot holds a created circle feature. -/
def w10Feature : ApexFeature :=
  ⟨4, "hole", .circle ⟨3, 4, 0, 5, 10, "hole"⟩ 5⟩

/-- The circle state for the C10 witness. -/
def w10Circle : ApexCircleState :=
  { center := ⟨3, 4, 0, 5, 10, "hole"⟩, depth := 7, flat := false,
    is_exterior := false, name := "hole", circle_feature := some w10Feature }

/-- C10: circle constraint synthesis appends exactly three constraints, in
order Radius, DistanceX, DistanceY, pinning the circle center (anchor key
3) to the origin feature start (key 1) with the center coordinates as
values; the appended constraints never include a Tangent or Coincident. -/
theorem spec_c10_circle_constraints (origin_index : ℤ) (c : ApexCircleState)
    (cf : ApexFeature) (constraints : List SketchConstraint)
    (h : c.circle_feature = some cf) :
    ApexCircle.constraints_append origin_index c constraints = .ok
      (constraints ++
        [SketchConstraint.Radius cf.index (ApexCircle.radius c),
         SketchConstraint.DistanceX origin_index 1 cf.index 3 c.center.x,
         SketchConstraint.DistanceY origin_index 1 cf.index 3 c.center.y]) ∧
    List.countP (fun con => con.isTangent || con.isCoincident)
      [SketchConstraint.Radius cf.index (ApexCircle.radius c),
       SketchConstraint.DistanceX origin_index 1 cf.index 3 c.center.x,
       SketchConstraint.DistanceY origin_index 1 cf.index 3 c.center.y] = 0 := by
  constructor
  · unfold ApexCircle.constraints_append
    rw [h]
  · rfl

/-- Witness for C10 at a concrete circle with its feature created. -/
theorem spec_c10_circle_constraints_witness :
    ApexCircle.constraints_append 0 w10Circle [] = .ok
      ([] ++
        [SketchConstraint.Radius w10Feature.index (ApexCircle.radius w10Circle),
         SketchConstraint.DistanceX 0 1 w10Feature.index 3 w10Circle.center.x,
         SketchConstraint.DistanceY 0 1 w10Feature.index 3 w10Circle.center.y]) ∧
    List.countP (fun con => con.isTangent || con.isCoincident)
      [SketchConstraint.Radius w10Feature.index (ApexCircle.radius w10Circle),
       SketchConstraint.DistanceX 0 1 w10Feature.index 3 w10Circle.center.x,
       SketchConstraint.DistanceY 0 1 w10Feature.index 3 w10Circle.center.y] = 0 :=
  spec_c10_circle_constraints 0 w10Circle w10Feature [] rfl

lemma string_append_ne_empty (a s : String) (h : s ≠ "") : a ++ s ≠ "" := by
  intro hcl
  have hlen := congrArg String.length hcl
  rw [String.length_append] at hlen
  simp at hlen
  have hz : s.length = 0 := hlen.2
  refine h ?_
  cases s with
  | mk data =>
    cases data with
    | nil => rfl
    | cons ch cs => simp [String.length] at hz

/-- C9: reorient with the default (empty) suffix discards the element name
(the result is named by the empty string), for both polygons and circles;
a non-empty suffix preserves the name with the suffix appended. -/
theorem spec_c9_reorient_default_name (p : ApexPolygonState) (c : ApexCircleState)
    (placement : ApexPoint → ApexPoint) (s : String) :
    ((ApexPolygon.reorient p placement "").name = "" ∧
     (ApexCircle.reorient c placement (some "")).name = "") ∧
    (s ≠ "" →
      (ApexPolygon.reorient p placement s).name = p.name ++ s ∧
      (ApexCircle.reorient c placement (some s)).name = c.name ++ s) := by
  constructor
  · constructor
    · show (if ("" : String) = "" then "" else p.name ++ "") = ""
      rw [if_pos rfl]
    · simp [ApexCircle.reorient, reorientName, ApexPoint.reorient]
  · intro hs
    constructor
    · show (if s = "" then "" else p.name ++ s) = p.name ++ s
      rw [if_neg hs]
    · have hne : c.name ++ s ≠ "" := string_append_ne_empty _ _ hs
      simp [ApexCircle.reorient, reorientName, if_neg hs, if_neg hne]

/-- The polygon used in the C9 witness. -/
def w9Polygon : ApexPolygonState :=
  { points := [⟨0, 0, 0, 0, 0, "pt"⟩], depth := 1, is_exterior := false,
    name := "poly", features := none }

/-- The circle used in the C9 witness. -/
def w9Circle : ApexCircleState :=
  { center := ⟨0, 0, 0, 1, 2, "ctr"⟩, depth := 1, flat := false,
    is_exterior := false, name := "circ", circle_feature := none }

/-- Witness for C9 with the identity placement and the suffix ".z". -/
theorem spec_c9_reorient_default_name_witness :
    ((ApexPolygon.reorient w9Polygon id "").name = "" ∧
     (ApexCircle.reorient w9Circle id (some "")).name = "") ∧
    ((ApexPolygon.reorient w9Polygon id ".z").name = w9Polygon.name ++ ".z" ∧
     (ApexCircle.reorient w9Circle id (some ".z")).name = w9Circle.name ++ ".z") :=
  ⟨(spec_c9_reorient_default_name w9Polygon w9Circle id ".z").1,
   (spec_c9_reorient_default_name w9Polygon w9Circle id ".z").2 (by decide)⟩

lemma keyle_iff (a b : ApexElementKey) :
    ApexElementKey.le a b = true ↔
    ((a.is_exterior = false ∧ b.is_exterior = true) ∨
     (a.is_exterior = b.is_exterior ∧
       (a.diameter < b.diameter ∨ (a.diameter = b.diameter ∧ a.depth ≤ b.depth)))) := by
  unfold ApexElementKey.le
  cases ha : a.is_exterior <;> cases hb : b.is_exterior <;>
    simp [ha, hb]

instance : IsTotal ApexElementKey keyGE where
  total := by
    intro a b
    unfold keyGE
    rw [keyle_iff, keyle_iff]
    cases ha : a.is_exterior <;> cases hb : b.is_exterior <;> simp [ha, hb] <;>
      [skip; skip] <;>
      · rcases lt_trichotomy a.diameter b.diameter with h | h | h
        · exact Or.inr (Or.inl h)
        · rcases le_total b.depth a.depth with h2 | h2
          · exact Or.inl (Or.inr ⟨h.symm, h2⟩)
          · exact Or.inr (Or.inr ⟨h, h2⟩)
        · exact Or.inl (Or.inl h)

instance : IsTrans ApexElementKey keyGE where
  trans := by
    intro a b c hab hbc
    unfold keyGE at hab hbc ⊢
    rw [keyle_iff] at hab hbc ⊢
    rcases hab with ⟨hbf, hat⟩ | ⟨heq1, hd1⟩ <;>
      rcases hbc with ⟨hcf, hbt⟩ | ⟨heq2, hd2⟩
    · rw [hbf] at hbt
      exact Bool.noConfusion hbt
    · exact Or.inl ⟨heq2.trans hbf, hat⟩
    · exact Or.inl ⟨hcf, by rw [← heq1]; exact hbt⟩
    · refine Or.inr ⟨heq2.trans heq1, ?_⟩
      rcases hd1 with h1 | ⟨h1e, h1p⟩ <;> rcases hd2 with h2 | ⟨h2e, h2p⟩
      · exact Or.inl (by linarith)
      · exact Or.inl (by rw [h2e]; exact h1)
      · exact Or.inl (by rw [← h1e]; exact h2)
      · exact Or.inr ⟨h2e.trans h1e, by linarith⟩

lemma exceptMapList_ok_inv {α β : Type} (f : α → Except String β) (l : List α)
    (ys : List β) (h : exceptMapList f l = .ok ys) :
    List.Forall₂ (fun x y => f x = .ok y) l ys := by
  induction l generalizing ys with
  | nil =>
    unfold exceptMapList at h
    injection h with h
    subst h
    exact .nil
  | cons a t ih =>
    unfold exceptMapList at h
    cases hfa : f a with
    | error e => rw [hfa] at h; exact Except.noConfusion h
    | ok y =>
      rw [hfa] at h
      cases ht : exceptMapList f t with
      | error e => rw [ht] at h; exact Except.noConfusion h
      | ok ys2 =>
        rw [ht] at h
        injection h with h
        subst h
        exact .cons hfa (ih ys2 ht)

lemma forall2_eq_map {α β : Type} (R : α → β → Prop) (g : α → β)
    (hg : ∀ x y, R x y → y = g x) :
    ∀ (l : List α) (ys : List β), List.Forall₂ R l ys → ys = l.map g := by
  intro l
  induction l with
  | nil => intro ys h; cases h; rfl
  | cons a t ih =>
    intro ys h
    cases h with
    | cons hxy htail => rw [List.map_cons, hg _ _ hxy, ih _ htail]

lemma planeProcessGroup_ok (elements : List ApexElementG) (k : ApexElementKey)
    (y : ApexElementKey × List ApexElementG)
    (h : planeProcessGroup elements k = .ok y) : y = (k, groupFor elements k) := by
  unfold planeProcessGroup at h
  dsimp only at h
  split_ifs at h <;>
    first
      | exact Except.noConfusion h
      | (injection h with h; exact h.symm)

lemma planeProcessGroups_ok_eq (elements : List ApexElementG)
    (gs : List (ApexElementKey × List ApexElementG))
    (h : planeProcessGroups elements = .ok gs) :
    gs = (sortedKeysDescending elements).map (fun k => (k, groupFor elements k)) :=
  forall2_eq_map _ _ (planeProcessGroup_ok elements) _ _
    (exceptMapList_ok_inv _ _ _ h)

lemma countP_beq_one {α : Type} [DecidableEq α] (l : List α) (hl : l.Nodup)
    (a : α) (ha : a ∈ l) : l.countP (fun b => b == a) = 1 := by
  induction l with
  | nil => cases ha
  | cons x t ih =>
    rw [List.countP_cons]
    rcases List.mem_cons.mp ha with rfl | hat
    · have hnt : a ∉ t := (List.nodup_cons.mp hl).1
      have hz : t.countP (fun b => b == a) = 0 := by
        apply List.countP_eq_zero.mpr
        intro b hb
        simp only [beq_iff_eq]
        intro hba
        exact hnt (hba ▸ hb)
      simp [hz]
    · have hxa : ¬ x = a := by
        intro hxa
        exact (List.nodup_cons.mp hl).1 (hxa ▸ hat)
      rw [ih (List.nodup_cons.mp hl).2 hat]
      simp [hxa]

/-- C7: element grouping partitions the element list by exact key equality
(each element lands in exactly one emitted group, and every member of a
group carries the group key), the groups are emitted in descending key
order (exterior first, then larger diameter, then larger depth, the
lexicographic dataclass order), and processing fails whenever some
exterior-keyed group has more than one element or contains an element of
non-positive depth (source lines 1557-1584). -/
theorem spec_c7_grouping (elements : List ApexElementG) :
    (∀ gs, planeProcessGroups elements = .ok gs →
      ((∀ e ∈ elements, gs.countP (fun g => decide (e ∈ g.2)) = 1) ∧
       (∀ g ∈ gs, ∀ e ∈ g.2, e.key = g.1) ∧
       List.Sorted keyGE (gs.map Prod.fst))) ∧
    ((∃ k ∈ groupKeys elements, k.is_exterior = true ∧
        ((groupFor elements k).length ≠ 1 ∨ ∃ e ∈ groupFor elements k, e.depth ≤ 0)) →
      ∀ gs, planeProcessGroups elements ≠ .ok gs) := by
  constructor
  · intro gs hok
    have hgs := planeProcessGroups_ok_eq elements gs hok
    subst hgs
    refine ⟨?_, ?_, ?_⟩
    · intro e he
      rw [List.countP_map]
      have hkmem : e.key ∈ sortedKeysDescending elements := by
        apply (List.perm_insertionSort keyGE (groupKeys elements)).mem_iff.mpr
        exact List.mem_dedup.mpr (List.mem_map_of_mem _ he)
      have hnd : (sortedKeysDescending elements).Nodup :=
        (List.perm_insertionSort keyGE (groupKeys elements)).nodup_iff.mpr
          (List.nodup_dedup _)
      have hcongr : ∀ k ∈ sortedKeysDescending elements,
          (((fun g => decide (e ∈ g.2)) ∘ (fun k => (k, groupFor elements k))) k = true
            ↔ (fun b => b == e.key) k = true) := by
        intro k hk
        have hiff : (e ∈ groupFor elements k) ↔ (k = e.key) := by
          unfold groupFor
          rw [List.mem_filter]
          constructor
          · rintro ⟨_, hbeq⟩
            exact (beq_iff_eq.mp hbeq).symm
          · intro hkk
            exact ⟨he, beq_iff_eq.mpr hkk.symm⟩
        show decide (e ∈ groupFor elements k) = true ↔ (k == e.key) = true
        rw [decide_eq_true_eq, beq_iff_eq]
        exact hiff
      rw [List.countP_congr hcongr]
      exact countP_beq_one _ hnd _ hkmem
    · intro g hg e he
      rw [List.mem_map] at hg
      obtain ⟨k, hk, rfl⟩ := hg
      unfold groupFor at he
      rw [List.mem_filter] at he
      exact beq_iff_eq.mp he.2
    · have hmf : (List.map (fun k => (k, groupFor elements k))
          (sortedKeysDescending elements)).map Prod.fst
          = sortedKeysDescending elements := by
        rw [List.map_map,
          show (Prod.fst ∘ fun k => (k, groupFor elements k)) = id from
            funext fun k => rfl, List.map_id]
      rw [hmf]
      exact List.sorted_insertionSort keyGE _
  · rintro ⟨k, hk, hext, hbad⟩ gs hok
    have hmem : k ∈ sortedKeysDescending elements :=
      (List.perm_insertionSort keyGE (groupKeys elements)).mem_iff.mpr hk
    obtain ⟨y, hy⟩ := exceptMapList_ok_mem _ _ _ hok k hmem
    unfold planeProcessGroup at hy
    dsimp only at hy
    rw [hext] at hy
    rw [if_pos rfl] at hy
    split_ifs at hy with h1 h2
    all_goals try exact Except.noConfusion hy
    rcases hbad with hlen | ⟨e, he, hdep⟩
    · exact h1 hlen
    · have hone := not_not.mp h1
      obtain ⟨x, hx⟩ := List.length_eq_one.mp hone
      rw [hx] at he h2
      have hex : e = x := List.mem_singleton.mp he
      subst hex
      rw [List.getD_cons_zero] at h2
      exact h2 hdep

/-- An exterior element of depth 5 for the C7 witness. -/
def w7e1 : ApexElementG := ⟨true, 0, 5, "ext"⟩

/-- A hole element of diameter 3 and depth 2 for the C7 witness. -/
def w7e2 : ApexElementG := ⟨false, 3, 2, "hole"⟩

/-- The two-element drawing of the C7 witness. -/
def w7Good : List ApexElementG := [w7e1, w7e2]

/-- A drawing whose only element is exterior with depth 0 (invalid). -/
def w7Bad : List ApexElementG := [⟨true, 0, 0, "bad"⟩]

/-- The expected groups for w7Good: the exterior group first. -/
def w7GoodGroups : List (ApexElementKey × List ApexElementG) :=
  [(⟨true, 0, 5⟩, [w7e1]), (⟨false, 3, 2⟩, [w7e2])]

/-- Witness for C7: on the two-element drawing the partition facts hold
and the groups come out exterior-first; the zero-depth exterior drawing
fails. -/
theorem spec_c7_grouping_witness :
    w7GoodGroups.countP (fun g => decide (w7e1 ∈ g.2)) = 1 ∧
    w7GoodGroups.countP (fun g => decide (w7e2 ∈ g.2)) = 1 ∧
    w7e2.key = (⟨false, 3, 2⟩ : ApexElementKey) ∧
    List.Sorted keyGE (w7GoodGroups.map Prod.fst) ∧
    (planeProcessGroups w7Bad).isOk = false := by
  have hok : planeProcessGroups w7Good = .ok w7GoodGroups := by rfl
  have h := (spec_c7_grouping w7Good).1 w7GoodGroups hok
  refine ⟨h.1 w7e1 (by decide), h.1 w7e2 (by decide),
    h.2.1 (⟨false, 3, 2⟩, [w7e2]) (by decide) w7e2 (by decide), h.2.2, ?_⟩
  have hbadthm := (spec_c7_grouping w7Bad).2
    ⟨⟨true, 0, 0⟩, by decide, rfl, Or.inr ⟨⟨true, 0, 0, "bad"⟩, by decide, by norm_num⟩⟩
  cases hv : planeProcessGroups w7Bad with
  | ok gs => exact absurd hv (hbadthm gs)
  | error e => rfl

lemma polygonArcAt_zero_radius (points : List ApexPoint) (i : ℕ)
    (h : ¬ ((points.getD i default).radius > 0)) :
    polygonArcAt points i = .ok none := by
  unfold polygonArcAt
  dsimp only
  rw [if_neg h]

lemma polygonArcAt_pos (points : List ApexPoint) (i : ℕ)
    (h : (points.getD i default).radius > 0) (a : ArcFeature)
    (hsolve : ApexArcFeature.solve
      (points.getD ((i + points.length - 1) % points.length) default)
      (points.getD i default)
      (points.getD ((i + 1) % points.length) default) = .ok a) :
    polygonArcAt points i = .ok (some a) := by
  unfold polygonArcAt
  dsimp only
  rw [if_pos h, hsolve]

lemma exceptMapList_eval3 {α β : Type} (f : α → Except String β) (x0 x1 x2 : α)
    (y0 y1 y2 : β) (h0 : f x0 = .ok y0) (h1 : f x1 = .ok y1) (h2 : f x2 = .ok y2) :
    exceptMapList f [x0, x1, x2] = .ok [y0, y1, y2] := by
  simp only [exceptMapList, h0, h1, h2]

lemma exceptMapList_eval4 {α β : Type} (f : α → Except String β) (x0 x1 x2 x3 : α)
    (y0 y1 y2 y3 : β) (h0 : f x0 = .ok y0) (h1 : f x1 = .ok y1)
    (h2 : f x2 = .ok y2) (h3 : f x3 = .ok y3) :
    exceptMapList f [x0, x1, x2, x3] = .ok [y0, y1, y2, y3] := by
  simp only [exceptMapList, h0, h1, h2, h3]

/-- Vertex (0,0) of the unrounded triangle used for C6. -/
def c6pa : ApexPoint := ⟨0, 0, 0, 0, 0, "a"⟩

/-- Vertex (4,0). -/
def c6pb : ApexPoint := ⟨4, 0, 0, 0, 0, "b"⟩

/-- Vertex (0,3). -/
def c6pc : ApexPoint := ⟨0, 3, 0, 0, 0, "c"⟩

/-- The triangle point loop. -/
def c6points : List ApexPoint := [c6pa, c6pb, c6pc]

/-- The chain features_get computes for the triangle: three fresh line
features, each with the initial index -999. -/
def c6fs0 : List ApexFeature :=
  [⟨-999, "a", .line c6pc c6pa⟩, ⟨-999, "b", .line c6pa c6pb⟩,
   ⟨-999, "c", .line c6pb c6pc⟩]

/-- The same three lines after ApexDrawing.sketch assigned indices 1..3. -/
def c6fs1 : List ApexFeature :=
  [⟨1, "a", .line c6pc c6pa⟩, ⟨2, "b", .line c6pa c6pb⟩,
   ⟨3, "c", .line c6pb c6pc⟩]

/-- The triangle polygon in the state reached after one features_get call
followed by index assignment: the indexed chain is memoized. -/
def c6state : ApexPolygonState :=
  { points := c6points, depth := 5, is_exterior := false, name := "tri",
    features := some c6fs1 }

lemma c6_pass1 : exceptMapList (polygonArcAt c6points)
    (List.range c6points.length) = .ok [none, none, none] := by
  rw [show List.range c6points.length = [0, 1, 2] from rfl]
  exact exceptMapList_eval3 _ _ _ _ _ _ _
    (polygonArcAt_zero_radius _ _ (by show ¬ ((0:ℝ) > 0); norm_num))
    (polygonArcAt_zero_radius _ _ (by show ¬ ((0:ℝ) > 0); norm_num))
    (polygonArcAt_zero_radius _ _ (by show ¬ ((0:ℝ) > 0); norm_num))

lemma c6_pass2 : exceptMapList (polygonLineAt c6points [none, none, none])
    (List.range c6points.length)
    = .ok [some (c6pc, c6pa, "a"), some (c6pa, c6pb, "b"), some (c6pb, c6pc, "c")] := by
  rw [show List.range c6points.length = [0, 1, 2] from rfl]
  exact exceptMapList_eval3 _ _ _ _ _ _ _ rfl rfl rfl

lemma c6_features_eval : ApexPolygon.features_compute c6points = .ok c6fs0 := by
  unfold ApexPolygon.features_compute
  rw [c6_pass1]
  dsimp only
  rw [c6_pass2]
  rfl

lemma c6_features_get_eval : ApexPolygon.features_get c6state
    = .ok (c6fs0, { c6state with features := some c6fs0 }) := by
  unfold ApexPolygon.features_get
  rw [show c6state.points = c6points from rfl, c6_features_eval]
  rfl

/-- Counterexample to C6: the triangle polygon already holds a memoized,
index-assigned chain (c6fs1), yet a second features_get call rebuilds the
chain from the points and overwrites the stored tuple with fresh features
whose indices are back to the unset value -999, so the stored primitives
are replaced, not returned. -/
theorem spec_c6_counterexample :
    ApexPolygon.features_get c6state
      = .ok (c6fs0, { c6state with features := some c6fs0 }) ∧
    some c6fs0 ≠ c6state.features := by
  refine ⟨c6_features_get_eval, ?_⟩
  intro h
  have h2 : c6fs0 = c6fs1 := by
    injection h
  have h3 : ((c6fs0.getD 0 default).index : ℤ) = (c6fs1.getD 0 default).index :=
    congrArg (fun l => (l.getD 0 default).index) h2
  norm_num [c6fs0, c6fs1] at h3

/-- C6 amended: ApexCircle.features_get memoizes (with the feature already
created, a second call returns it and leaves the state unchanged), but
ApexPolygon.features_get does not: whatever is stored, a call recomputes
the chain from the points alone and overwrites the memo slot with the
fresh tuple. -/
theorem spec_c6_memoization (c : ApexCircleState) (cf : ApexFeature)
    (p : ApexPolygonState) (old : Option (List ApexFeature))
    (fs : List ApexFeature) (s2 : ApexPolygonState) :
    (c.circle_feature = some cf → ApexCircle.features_get c = ([cf], c)) ∧
    (ApexPolygon.features_get { p with features := old } = .ok (fs, s2) →
      s2.features = some fs ∧ ApexPolygon.features_compute p.points = .ok fs) := by
  constructor
  · intro h
    unfold ApexCircle.features_get
    rw [h]
  · intro h
    unfold ApexPolygon.features_get at h
    cases hv : ApexPolygon.features_compute p.points with
    | error e =>
      rw [show ({ p with features := old } : ApexPolygonState).points = p.points
        from rfl, hv] at h
      exact Except.noConfusion h
    | ok fs2 =>
      rw [show ({ p with features := old } : ApexPolygonState).points = p.points
        from rfl, hv] at h
      injection h with h
      have h1 : fs2 = fs := congrArg Prod.fst h
      subst h1
      have h2 : s2 = { p with features := some fs2 } := (congrArg Prod.snd h).symm
      exact ⟨by rw [h2], rfl⟩

/-- The triangle polygon before any features_get call. -/
def c6state0 : ApexPolygonState :=
  { points := c6points, depth := 5, is_exterior := false, name := "tri",
    features := none }

/-- Witness for the amended C6: the circle with a created feature returns
it unchanged; the triangle polygon with the indexed chain stored gets it
overwritten by the freshly computed chain. -/
theorem spec_c6_memoization_witness :
    ApexCircle.features_get w10Circle = ([w10Feature], w10Circle) ∧
    (({ c6state with features := some c6fs0 } : ApexPolygonState).features
       = some c6fs0 ∧
     ApexPolygon.features_compute c6points = .ok c6fs0) :=
  ⟨(spec_c6_memoization w10Circle w10Feature c6state0 (some c6fs1) c6fs0
      { c6state with features := some c6fs0 }).1 rfl,
   (spec_c6_memoization w10Circle w10Feature c6state0 (some c6fs1) c6fs0
      { c6state with features := some c6fs0 }).2 c6_features_get_eval⟩

lemma magnitude_eval (p : ApexPoint) (m : ℝ) (hm : 0 ≤ m)
    (hx : p.x * p.x + p.y * p.y + p.z * p.z = m ^ 2) :
    p.magnitude = m := by
  unfold ApexPoint.magnitude
  rw [hx]
  exact Real.sqrt_sq hm

/-- C5 amended: at a junction whose two neighbors both carry arcs, when
the summed tangent-leg lengths are within 1e-9 of the vertex distance the
line is suppressed (no line primitive is emitted there); when the sum
exceeds the distance by 1e-9 or more (i.e. strictly exceeds it outside the
suppression tolerance) the per-junction pass fails with "Arcs are too big"
and the whole chain build fails.  A sum that exceeds the distance by less
than 1e-9 falls in the suppression branch, not the failure branch. -/
theorem spec_c5_line_suppression (points : List ApexPoint)
    (arcs : List (Option ArcFeature)) (i : ℕ) (ba aa : ArcFeature)
    (hi : i < points.length)
    (hpass1 : exceptMapList (polygonArcAt points) (List.range points.length)
      = .ok arcs)
    (hb : arcs.getD ((i + points.length - 1) % points.length) none = some ba)
    (ha : arcs.getD i none = some aa) :
    (|(ba.finish - ba.apex).magnitude + (aa.start - aa.apex).magnitude -
       (points.getD ((i + points.length - 1) % points.length) default -
        points.getD i default).magnitude| < 1e-9 →
      polygonLineAt points arcs i = .ok none) ∧
    ((points.getD ((i + points.length - 1) % points.length) default -
        points.getD i default).magnitude + 1e-9 ≤
       (ba.finish - ba.apex).magnitude + (aa.start - aa.apex).magnitude →
      (polygonLineAt points arcs i = .error "Arcs are too big" ∧
       ∀ fs, ApexPolygon.features_compute points ≠ .ok fs)) := by
  constructor
  · intro hnear
    unfold polygonLineAt
    dsimp only
    rw [hb, ha]
    dsimp only
    rw [if_pos hnear]
  · intro hfar
    have hnot : ¬ (|(ba.finish - ba.apex).magnitude +
        (aa.start - aa.apex).magnitude -
        (points.getD ((i + points.length - 1) % points.length) default -
         points.getD i default).magnitude| < 1e-9) := by
      rw [abs_of_nonneg (by linarith)]
      linarith
    have hgt : (ba.finish - ba.apex).magnitude + (aa.start - aa.apex).magnitude >
        (points.getD ((i + points.length - 1) % points.length) default -
         points.getD i default).magnitude := by
      linarith
    have hline : polygonLineAt points arcs i = .error "Arcs are too big" := by
      unfold polygonLineAt
      dsimp only
      rw [hb, ha]
      dsimp only
      rw [if_neg hnot, if_pos hgt]
    refine ⟨hline, ?_⟩
    intro fs hfs
    unfold ApexPolygon.features_compute at hfs
    rw [hpass1] at hfs
    dsimp only at hfs
    cases hlv : exceptMapList (polygonLineAt points arcs)
        (List.range points.length) with
    | error e => rw [hlv] at hfs; exact Except.noConfusion hfs
    | ok lines =>
      obtain ⟨y, hy⟩ := exceptMapList_ok_mem _ _ _ hlv i (List.mem_range.mpr hi)
      rw [hline] at hy
      exact Except.noConfusion hy

/-- The gap that the counterexample uses: the two unit tangent legs sum to
2, and the vertex distance is 2 - 5e-10, so the legs strictly exceed the
edge but within the 1e-9 suppression tolerance. -/
noncomputable def c5L : ℝ := 2 - 5e-10

/-- A gap variant whose excess (2e-9) is outside the tolerance. -/
noncomputable def c5bL : ℝ := 2 - 2e-9

/-- Vertex (0,0), rounded with radius 1. -/
def c5q0 : ApexPoint := ⟨0, 0, 0, 1, 2, "p0"⟩

/-- Vertex (L,0), rounded with radius 1. -/
noncomputable def c5q1 (L : ℝ) : ApexPoint := ⟨L, 0, 0, 1, 2, "p1"⟩

/-- Vertex (L,10), unrounded. -/
noncomputable def c5q2 (L : ℝ) : ApexPoint := ⟨L, 10, 0, 0, 0, "p2"⟩

/-- Vertex (0,10), unrounded. -/
def c5q3 : ApexPoint := ⟨0, 10, 0, 0, 0, "p3"⟩

/-- The rectangle-like loop with bottom edge of length L and both bottom
corners rounded with radius 1. -/
noncomputable def c5pointsL (L : ℝ) : List ApexPoint := [c5q0, c5q1 L, c5q2 L, c5q3]

/-- The arc the solver produces at vertex (0,0). -/
noncomputable def c5arc0L (L : ℝ) : ArcFeature :=
  { apex := c5q0, begin_ := c5q3, center := ⟨1, 1, 0, 0, 0, ""⟩, end_ := c5q1 L,
    finish := ⟨1, 0, 0, 0, 0, ""⟩, finish_angle := -(Real.pi / 2),
    finish_length := 1, radius := 1, start := ⟨0, 1, 0, 0, 0, ""⟩,
    sweep_angle := Real.pi / 2, start_angle := Real.pi, start_length := 1 }

/-- The arc the solver produces at vertex (L,0). -/
noncomputable def c5arc1L (L : ℝ) : ArcFeature :=
  { apex := c5q1 L, begin_ := c5q0, center := ⟨L - 1, 1, 0, 0, 0, ""⟩,
    end_ := c5q2 L, finish := ⟨L, 1, 0, 0, 0, ""⟩, finish_angle := 0,
    finish_length := 1, radius := 1, start := ⟨L - 1, 0, 0, 0, 0, ""⟩,
    sweep_angle := Real.pi / 2, start_angle := -(Real.pi / 2), start_length := 1 }

lemma c5_arc0_eval (L : ℝ) (hL : 0 < L) :
    ApexArcFeature.solve c5q3 c5q0 (c5q1 L) = .ok (c5arc0L L) := by
  have h := solve_corner_NE 0 0 0 0 0 10 L 1 0 0 1 2 2 "p3" "p1" "p0"
    (by norm_num) hL (by norm_num)
  norm_num at h
  simp only [c5q3, c5q0, c5q1, c5arc0L]
  exact h

lemma c5_arc1_eval (L : ℝ) (hL : 0 < L) :
    ApexArcFeature.solve c5q0 (c5q1 L) (c5q2 L) = .ok (c5arc1L L) := by
  have h := solve_corner_WN L 0 0 0 0 L 10 1 1 2 0 0 2 "p0" "p2" "p1"
    hL (by norm_num) (by norm_num)
  norm_num at h
  simp only [c5q0, c5q1, c5q2, c5arc1L]
  exact h

lemma c5_arcAt0 (L : ℝ) (hL : 0 < L) :
    polygonArcAt (c5pointsL L) 0 = .ok (some (c5arc0L L)) := by
  unfold polygonArcAt
  dsimp only
  rw [show (c5pointsL L).length = 4 from rfl]
  rw [if_pos (by show (0:ℝ) < 1; norm_num :
        ((c5pointsL L).getD 0 default).radius > 0)]
  rw [show (c5pointsL L).getD ((0 + 4 - 1) % 4) default = c5q3 from rfl,
      show (c5pointsL L).getD 0 default = c5q0 from rfl,
      show (c5pointsL L).getD ((0 + 1) % 4) default = c5q1 L from rfl,
      c5_arc0_eval L hL]

lemma c5_arcAt1 (L : ℝ) (hL : 0 < L) :
    polygonArcAt (c5pointsL L) 1 = .ok (some (c5arc1L L)) := by
  unfold polygonArcAt
  dsimp only
  rw [show (c5pointsL L).length = 4 from rfl]
  rw [if_pos (by show (0:ℝ) < 1; norm_num :
        ((c5pointsL L).getD 1 default).radius > 0)]
  rw [show (c5pointsL L).getD ((1 + 4 - 1) % 4) default = c5q0 from rfl,
      show (c5pointsL L).getD 1 default = c5q1 L from rfl,
      show (c5pointsL L).getD ((1 + 1) % 4) default = c5q2 L from rfl,
      c5_arc1_eval L hL]

lemma c5_pass1 (L : ℝ) (hL : 0 < L) :
    exceptMapList (polygonArcAt (c5pointsL L)) (List.range (c5pointsL L).length)
    = .ok [some (c5arc0L L), some (c5arc1L L), none, none] := by
  rw [show List.range (c5pointsL L).length = [0, 1, 2, 3] from rfl]
  exact exceptMapList_eval4 _ _ _ _ _ _ _ _ _ (c5_arcAt0 L hL) (c5_arcAt1 L hL)
    (polygonArcAt_zero_radius _ _ (by show ¬ ((0:ℝ) > 0); norm_num))
    (polygonArcAt_zero_radius _ _ (by show ¬ ((0:ℝ) > 0); norm_num))

lemma c5_mag_before (L : ℝ) :
    ((c5arc0L L).finish - (c5arc0L L).apex).magnitude = 1 :=
  magnitude_eval _ 1 (by norm_num)
    (by show ((1:ℝ) - 0) * ((1:ℝ) - 0) + ((0:ℝ) - 0) * ((0:ℝ) - 0) +
          ((0:ℝ) - 0) * ((0:ℝ) - 0) = 1 ^ 2
        norm_num)

lemma c5_mag_at (L : ℝ) :
    ((c5arc1L L).start - (c5arc1L L).apex).magnitude = 1 :=
  magnitude_eval _ 1 (by norm_num)
    (by show (L - 1 - L) * (L - 1 - L) + ((0:ℝ) - 0) * ((0:ℝ) - 0) +
          ((0:ℝ) - 0) * ((0:ℝ) - 0) = 1 ^ 2
        ring)

lemma c5_mag_line (L : ℝ) (hL : 0 ≤ L) : (c5q0 - c5q1 L).magnitude = L :=
  magnitude_eval _ L hL
    (by show ((0:ℝ) - L) * ((0:ℝ) - L) + ((0:ℝ) - 0) * ((0:ℝ) - 0) +
          ((0:ℝ) - 0) * ((0:ℝ) - 0) = L ^ 2
        ring)

lemma c5_line1_ok (L : ℝ) (hL : 0 ≤ L) (hnear : |(1:ℝ) + 1 - L| < 1e-9) :
    polygonLineAt (c5pointsL L)
      [some (c5arc0L L), some (c5arc1L L), none, none] 1 = .ok none := by
  unfold polygonLineAt
  dsimp only
  rw [show (c5pointsL L).length = 4 from rfl]
  rw [show ([some (c5arc0L L), some (c5arc1L L), none, none] :
        List (Option ArcFeature)).getD ((1 + 4 - 1) % 4) none
        = some (c5arc0L L) from rfl,
      show ([some (c5arc0L L), some (c5arc1L L), none, none] :
        List (Option ArcFeature)).getD 1 none = some (c5arc1L L) from rfl]
  dsimp only
  rw [show (c5pointsL L).getD ((1 + 4 - 1) % 4) default = c5q0 from rfl,
      show (c5pointsL L).getD 1 default = c5q1 L from rfl,
      c5_mag_before L, c5_mag_at L, c5_mag_line L hL]
  rw [if_pos hnear]

lemma c5_lineAt0 (L : ℝ) :
    polygonLineAt (c5pointsL L)
      [some (c5arc0L L), some (c5arc1L L), none, none] 0
      = .ok (some (c5q3, (c5arc0L L).start, "p0")) := by
  unfold polygonLineAt
  dsimp only
  rw [show (c5pointsL L).length = 4 from rfl]
  rfl

lemma c5_lineAt2 (L : ℝ) :
    polygonLineAt (c5pointsL L)
      [some (c5arc0L L), some (c5arc1L L), none, none] 2
      = .ok (some ((c5arc1L L).finish, c5q2 L, "p2")) := by
  unfold polygonLineAt
  dsimp only
  rw [show (c5pointsL L).length = 4 from rfl]
  rfl

lemma c5_lineAt3 (L : ℝ) :
    polygonLineAt (c5pointsL L)
      [some (c5arc0L L), some (c5arc1L L), none, none] 3
      = .ok (some (c5q2 L, c5q3, "p3")) := by
  unfold polygonLineAt
  dsimp only
  rw [show (c5pointsL L).length = 4 from rfl]
  rfl

lemma c5_pass2 (L : ℝ) (hL : 0 ≤ L) (hnear : |(1:ℝ) + 1 - L| < 1e-9) :
    exceptMapList
      (polygonLineAt (c5pointsL L) [some (c5arc0L L), some (c5arc1L L), none, none])
      (List.range (c5pointsL L).length)
    = .ok [some (c5q3, (c5arc0L L).start, "p0"), none,
           some ((c5arc1L L).finish, c5q2 L, "p2"),
           some (c5q2 L, c5q3, "p3")] := by
  rw [show List.range (c5pointsL L).length = [0, 1, 2, 3] from rfl]
  exact exceptMapList_eval4 _ _ _ _ _ _ _ _ _ (c5_lineAt0 L)
    (c5_line1_ok L hL hnear) (c5_lineAt2 L) (c5_lineAt3 L)

/-- The chain built for the rounded-bottom rectangle: the line between the
two bottom arcs is suppressed. -/
noncomputable def c5fsL (L : ℝ) : List ApexFeature :=
  [⟨-999, "p0", .line c5q3 (c5arc0L L).start⟩,
   ⟨-999, "p0", .arc (c5arc0L L)⟩,
   ⟨-999, "p1", .arc (c5arc1L L)⟩,
   ⟨-999, "p2", .line (c5arc1L L).finish (c5q2 L)⟩,
   ⟨-999, "p3", .line (c5q2 L) c5q3⟩]

lemma c5_features_eval (L : ℝ) (hL : 0 < L) (hnear : |(1:ℝ) + 1 - L| < 1e-9) :
    ApexPolygon.features_compute (c5pointsL L) = .ok (c5fsL L) := by
  unfold ApexPolygon.features_compute
  rw [c5_pass1 L hL]
  dsimp only
  rw [c5_pass2 L hL.le hnear]
  dsimp only
  unfold polygonAssemble
  rw [show List.range (c5pointsL L).length = [0, 1, 2, 3] from rfl]
  rfl

/-- Counterexample to C5: for the bottom edge of length 2 - 5e-10, the
tangent legs of the two adjacent arcs sum to 2, strictly exceeding the
vertex distance, yet chain building succeeds (the line is suppressed by
the 1e-9 tolerance) instead of failing as the claim demands. -/
theorem spec_c5_counterexample :
    ApexArcFeature.solve c5q3 c5q0 (c5q1 c5L) = .ok (c5arc0L c5L) ∧
    ApexArcFeature.solve c5q0 (c5q1 c5L) (c5q2 c5L) = .ok (c5arc1L c5L) ∧
    ((c5arc0L c5L).finish - (c5arc0L c5L).apex).magnitude +
      ((c5arc1L c5L).start - (c5arc1L c5L).apex).magnitude >
      (c5q0 - c5q1 c5L).magnitude ∧
    ApexPolygon.features_compute (c5pointsL c5L) = .ok (c5fsL c5L) := by
  have hL : (0:ℝ) < c5L := by norm_num [c5L]
  have hnear : |(1:ℝ) + 1 - c5L| < 1e-9 := by
    rw [show (1:ℝ) + 1 - c5L = 5e-10 from by norm_num [c5L],
      abs_of_nonneg (by norm_num : (0:ℝ) ≤ 5e-10)]
    norm_num
  refine ⟨c5_arc0_eval c5L hL, c5_arc1_eval c5L hL, ?_,
    c5_features_eval c5L hL hnear⟩
  rw [c5_mag_before, c5_mag_at, c5_mag_line c5L hL.le]
  norm_num [c5L]

/-- Witness for the amended C5: with excess 5e-10 the junction line is
suppressed; with excess 2e-9 the junction pass errors and the whole chain
build fails. -/
theorem spec_c5_line_suppression_witness :
    polygonLineAt (c5pointsL c5L)
      [some (c5arc0L c5L), some (c5arc1L c5L), none, none] 1 = .ok none ∧
    polygonLineAt (c5pointsL c5bL)
      [some (c5arc0L c5bL), some (c5arc1L c5bL), none, none] 1
      = .error "Arcs are too big" ∧
    (ApexPolygon.features_compute (c5pointsL c5bL)).isOk = false := by
  have hL : (0:ℝ) < c5L := by norm_num [c5L]
  have hbL : (0:ℝ) < c5bL := by norm_num [c5bL]
  have hb1 : ([some (c5arc0L c5L), some (c5arc1L c5L), none, none] :
      List (Option ArcFeature)).getD
      ((1 + (c5pointsL c5L).length - 1) % (c5pointsL c5L).length) none
      = some (c5arc0L c5L) := by
    rw [show (c5pointsL c5L).length = 4 from rfl]
    rfl
  have hb2 : ([some (c5arc0L c5bL), some (c5arc1L c5bL), none, none] :
      List (Option ArcFeature)).getD
      ((1 + (c5pointsL c5bL).length - 1) % (c5pointsL c5bL).length) none
      = some (c5arc0L c5bL) := by
    rw [show (c5pointsL c5bL).length = 4 from rfl]
    rfl
  have hdist1 : ((c5pointsL c5L).getD
      ((1 + (c5pointsL c5L).length - 1) % (c5pointsL c5L).length) default -
      (c5pointsL c5L).getD 1 default).magnitude = c5L := by
    rw [show (c5pointsL c5L).length = 4 from rfl,
        show (c5pointsL c5L).getD ((1 + 4 - 1) % 4) default = c5q0 from rfl,
        show (c5pointsL c5L).getD 1 default = c5q1 c5L from rfl]
    exact c5_mag_line c5L hL.le
  have hdist2 : ((c5pointsL c5bL).getD
      ((1 + (c5pointsL c5bL).length - 1) % (c5pointsL c5bL).length) default -
      (c5pointsL c5bL).getD 1 default).magnitude = c5bL := by
    rw [show (c5pointsL c5bL).length = 4 from rfl,
        show (c5pointsL c5bL).getD ((1 + 4 - 1) % 4) default = c5q0 from rfl,
        show (c5pointsL c5bL).getD 1 default = c5q1 c5bL from rfl]
    exact c5_mag_line c5bL hbL.le
  have h1 := (spec_c5_line_suppression (c5pointsL c5L)
    [some (c5arc0L c5L), some (c5arc1L c5L), none, none] 1
    (c5arc0L c5L) (c5arc1L c5L) (by show (1:ℕ) < 4; norm_num)
    (c5_pass1 c5L hL) hb1 rfl).1 (by
      rw [c5_mag_before, c5_mag_at, hdist1,
        show (1:ℝ) + 1 - c5L = 5e-10 from by norm_num [c5L],
        abs_of_nonneg (by norm_num : (0:ℝ) ≤ 5e-10)]
      norm_num)
  have h2 := (spec_c5_line_suppression (c5pointsL c5bL)
    [some (c5arc0L c5bL), some (c5arc1L c5bL), none, none] 1
    (c5arc0L c5bL) (c5arc1L c5bL) (by show (1:ℕ) < 4; norm_num)
    (c5_pass1 c5bL hbL) hb2 rfl).2 (by
      rw [c5_mag_before, c5_mag_at, hdist2]
      norm_num [c5bL])
  refine ⟨h1, h2.1, ?_⟩
  cases hv : ApexPolygon.features_compute (c5pointsL c5bL) with
  | ok fs => exact absurd hv (h2.2 fs)
  | error e => rfl
